import Mathlib

/-!
# The fault dispute game monitor (`op-challenger/fault/monitor.go`)

A shallow embedding of `gameMonitor` and of its methods `progressGame`,
`progressGames` and `MonitorGames`, followed by the properties of the polling
cycle and of the loop around it.

Modelling conventions.

* The collaborators of the monitor (block-number fetcher, game source, game
  creator, agents) are external code. Their behaviour is an arbitrary function of
  a world state `W` that every call may change, so a collaborator may answer
  differently each time it is called. The `context.Context` handed to the
  collaborators is part of that world.
* Every function returns, next to its Go result, the monitor after the call, the
  world after the call and the list of calls it made on collaborators and on the
  logger, oldest first (`Run.events`).
* `ProgressGame` has no error result. A call that panics is the answer `none`;
  the monitor has no `recover`, so the panic unwinds through `progressGame` and
  `progressGames` (`Outcome.panicked`).
* The loop of `MonitorGames` does not end by itself, so it is observed for a
  bounded number of iterations (`fuel`); a loop that has not returned by then is
  `LoopOutcome.running`. The `select` statement takes the `ctx.Done()` case when
  that channel is closed before the 300 millisecond timer fires, the timer case
  when it is not; when and whether the channel is closed is read off the world
  (`Context.doneAfter`).
-/

namespace Fault

/-! ## Data model -/

/-- A `common.Address` (20 bytes). The monitor only compares addresses and prints them. -/
abbrev Address := Nat

/-- The identity of a `gameAgent` value (the object behind the interface). -/
abbrev Agent := Nat

/-- A Go `uint64`. -/
abbrev Uint64 := Fin (2 ^ 64)

/-- A Go `error` value: either an error produced by a collaborator, or an error built by
`fmt.Errorf` with the `%w` verb, which keeps the error it wraps. -/
inductive GoError where
  | leaf (msg : String)
  | wrapped (msg : String) (inner : GoError)
  deriving DecidableEq, Repr

/-- The method `err.Error()`: the message of the error. -/
def GoError.Error : GoError → String
  | .leaf msg => msg
  | .wrapped msg _ => msg

/-- The method `errors.Unwrap(err)`: the wrapped error, if any. -/
def GoError.Unwrap : GoError → Option GoError
  | .leaf _ => none
  | .wrapped _ inner => some inner

/-- The call `fmt.Errorf(text + "%w", err)` where `text` is the already formatted part of the
message that precedes the `%w` verb. -/
def Errorf (text : String) (err : GoError) : GoError :=
  .wrapped (text ++ err.Error) err

/-- The result of a Go function returning `(T, error)`. -/
inductive Returned (α : Type) where
  | ok (value : α)
  | error (err : GoError)
  deriving DecidableEq, Repr

/-- Modelled from the spec: the declaration of `FaultDisputeGame` is not among the sources.
A game record is "minimally an address" (the field `Proxy` read by the monitor) "plus whatever
additional metadata the source chooses to report", which the monitor does not use. -/
structure FaultDisputeGame where
  Proxy : Address
  metadata : Nat
  deriving DecidableEq, Repr

/-- The value `new(big.Int).SetUint64(x)`: the integer with the value of `x`. -/
def SetUint64 (x : Uint64) : Int := Int.ofNat x.val

/-- The case of the `select` statement of `MonitorGames` that proceeds: the timer of
`time.After` fired, or `ctx.Done()` was closed. -/
inductive Wake where
  | timer
  | done
  deriving DecidableEq, Repr

/-- A call made by the monitor on a collaborator or on its logger, or a wait of `MonitorGames`
in its `select` statement (with the milliseconds it lasted and the case that proceeded). A
`createGame` call is recorded with its result, which the monitor inspects; the boolean of
`ProgressGame` is discarded by the monitor and is not recorded. -/
inductive Event where
  | fetchBlockNumber
  | FetchAllGamesAtBlock (blockNumber : Int)
  | createGame (address : Address) (result : Returned Agent)
  | ProgressGame (agent : Agent)
  | logError (msg : String) (game : Option Address) (err : GoError)
  | logInfo (msg : String)
  | selectWait (elapsed : Nat) (wake : Wake)
  deriving DecidableEq, Repr

/-- The Go map `map[common.Address]gameAgent` as an association list with unique keys. -/
abbrev GameMap := List (Address × Agent)

/-- The lookup `game, ok := games[address]`. -/
def GameMap.get (games : GameMap) (address : Address) : Option Agent :=
  List.lookup address games

/-- The assignment `games[address] = agent`: binds the key, replacing an earlier binding. -/
def GameMap.set (games : GameMap) (address : Address) (agent : Agent) : GameMap :=
  (address, agent) :: games.filter (fun entry => entry.1 != address)

/-- The keys of the map. -/
def GameMap.keys (games : GameMap) : List Address := games.map Prod.fst

/-- The struct `gameMonitor`. The three injected collaborators are functions of the world; the
`logger` field is modelled by the `logError` events. -/
structure gameMonitor (W : Type) where
  source : Int → W → Returned (List FaultDisputeGame) × W
  createGame : Address → W → Returned Agent × W
  fetchBlockNumber : W → Returned Uint64 × W
  games : GameMap

/-- What lies outside the monitor's own code: the dispatch of the interface method
`ProgressGame` on an agent (`none` when the call panics) and the textual form of an address
(the `%v` verb applied to a `common.Address`). -/
structure Runtime (W : Type) where
  ProgressGame : Agent → W → Option Bool × W
  addressString : Address → String

/-- A runtime all of whose agents return from `ProgressGame`, as the method type
`ProgressGame(ctx) bool` promises. -/
def Runtime.returning {W : Type} (ProgressGame : Agent → W → Bool × W)
    (addressString : Address → String) : Runtime W where
  ProgressGame := fun agent w => (some (ProgressGame agent w).1, (ProgressGame agent w).2)
  addressString := addressString

/-- How a call ended: it returned a value, or a panic unwound through it. -/
inductive Outcome (α : Type) where
  | returned (value : α)
  | panicked
  deriving DecidableEq, Repr

/-- Everything observable of a call of a monitor method. -/
structure Run (W : Type) (α : Type) where
  outcome : Outcome α
  monitor : gameMonitor W
  world : W
  events : List Event

/-! ## The monitor -/

/-- The constructor `newGameMonitor`: the injected collaborators and an empty map. -/
def newGameMonitor {W : Type} (fetchBlockNumber : W → Returned Uint64 × W)
    (source : Int → W → Returned (List FaultDisputeGame) × W)
    (createGame : Address → W → Returned Agent × W) : gameMonitor W where
  source := source
  createGame := createGame
  fetchBlockNumber := fetchBlockNumber
  games := []

/-- The statements `game.ProgressGame(ctx); return nil` that end `progressGame`. -/
def callProgressGame {W : Type} (rt : Runtime W) (m : gameMonitor W) (game : Agent) (w : W)
    (before : List Event) : Run W (Option GoError) :=
  match rt.ProgressGame game w with
  | (some _, w1) => ⟨.returned none, m, w1, before ++ [Event.ProgressGame game]⟩
  | (none, w1) => ⟨.panicked, m, w1, before ++ [Event.ProgressGame game]⟩

/-- The method `gameMonitor.progressGame`. A returned `none` is Go's `nil` error. -/
def progressGame {W : Type} (rt : Runtime W) (m : gameMonitor W) (gameData : FaultDisputeGame)
    (w : W) : Run W (Option GoError) :=
  match m.games.get gameData.Proxy with
  | some game => callProgressGame rt m game w []
  | none =>
    match m.createGame gameData.Proxy w with
    | (.error err, w1) =>
      ⟨.returned (some (Errorf ("failed to progress game " ++ rt.addressString gameData.Proxy
          ++ ": ") err)), m, w1, [Event.createGame gameData.Proxy (.error err)]⟩
    | (.ok newGame, w1) =>
      callProgressGame rt { m with games := m.games.set gameData.Proxy newGame } newGame w1
        [Event.createGame gameData.Proxy (.ok newGame)]

/-- The loop `for _, game := range games` of `progressGames`. -/
def progressGamesLoop {W : Type} (rt : Runtime W) :
    List FaultDisputeGame → gameMonitor W → W → Run W Unit
  | [], m, w => ⟨.returned (), m, w, []⟩
  | game :: rest, m, w =>
    match progressGame rt m game w with
    | ⟨.panicked, m1, w1, ev⟩ => ⟨.panicked, m1, w1, ev⟩
    | ⟨.returned none, m1, w1, ev⟩ =>
      let r := progressGamesLoop rt rest m1 w1
      ⟨r.outcome, r.monitor, r.world, ev ++ r.events⟩
    | ⟨.returned (some err), m1, w1, ev⟩ =>
      let r := progressGamesLoop rt rest m1 w1
      ⟨r.outcome, r.monitor, r.world,
        ev ++ Event.logError "Error while progressing game" (some game.Proxy) err :: r.events⟩

/-- The method `gameMonitor.progressGames`: one polling cycle. -/
def progressGames {W : Type} (rt : Runtime W) (m : gameMonitor W) (w : W) :
    Run W (Option GoError) :=
  match m.fetchBlockNumber w with
  | (.error err, w1) =>
    ⟨.returned (some (Errorf "failed to load current block number: " err)), m, w1,
      [Event.fetchBlockNumber]⟩
  | (.ok blockNum, w1) =>
    match m.source (SetUint64 blockNum) w1 with
    | (.error err, w2) =>
      ⟨.returned (some (Errorf "failed to load games: " err)), m, w2,
        [Event.fetchBlockNumber, Event.FetchAllGamesAtBlock (SetUint64 blockNum)]⟩
    | (.ok games, w2) =>
      match progressGamesLoop rt games m w2 with
      | ⟨.panicked, m3, w3, ev⟩ =>
        ⟨.panicked, m3, w3,
          Event.fetchBlockNumber :: Event.FetchAllGamesAtBlock (SetUint64 blockNum) :: ev⟩
      | ⟨.returned _, m3, w3, ev⟩ =>
        ⟨.returned none, m3, w3,
          Event.fetchBlockNumber :: Event.FetchAllGamesAtBlock (SetUint64 blockNum) :: ev⟩

/-- The first `n` iterations of the loop of `MonitorGames`, the waits between them left out:
`progressGames` is called again and again on the same monitor, an error it returns is logged
and does not stop the loop, a panic does. What happens to the world during a wait is part of
what the next call of `fetchBlockNumber` does to the world. -/
def cycles {W : Type} (rt : Runtime W) : Nat → gameMonitor W → W → Run W Unit
  | 0, m, w => ⟨.returned (), m, w, []⟩
  | n + 1, m, w =>
    match progressGames rt m w with
    | ⟨.panicked, m1, w1, ev⟩ => ⟨.panicked, m1, w1, ev⟩
    | ⟨.returned none, m1, w1, ev⟩ =>
      let r := cycles rt n m1 w1
      ⟨r.outcome, r.monitor, r.world, ev ++ r.events⟩
    | ⟨.returned (some err), m1, w1, ev⟩ =>
      let r := cycles rt n m1 w1
      ⟨r.outcome, r.monitor, r.world,
        ev ++ Event.logError "Failed to progress games" none err :: r.events⟩


/-! ## Auxiliary definitions -/

/-- What `progressGames` logs after the call of `progressGame` on a record returned. -/
def loggedFor (game : FaultDisputeGame) : Option GoError → List Event
  | none => []
  | some err => [Event.logError "Error while progressing game" (some game.Proxy) err]

/-- The result of a cycle whose loop ran: `nil` unless a panic unwound. -/
def cycleOutcome : Outcome Unit → Outcome (Option GoError)
  | .returned _ => .returned none
  | .panicked => .panicked

/-- What `MonitorGames` logs after a cycle returned. -/
def loggedForCycle : Option GoError → List Event
  | none => []
  | some err => [Event.logError "Failed to progress games" none err]

/-- The context `ctx` of `MonitorGames` and the clock, as far as the `select` statement is
concerned. All fields are read at the world in which a wait begins, except `Err`.
* `Err` is the method `ctx.Err()`.
* `doneAfter` tells after how many milliseconds of waiting the channel `ctx.Done()` is closed:
  `some 0` when the context is already cancelled as the wait begins, `none` when it is not
  cancelled however long the wait.
* `tie` is the case Go picks when the channel is closed at the very moment the timer fires.
* `elapse d` is the world after `d` milliseconds of waiting. -/
structure Context (W : Type) where
  Err : W → Option GoError
  doneAfter : W → Option Nat
  tie : W → Wake
  elapse : Nat → W → W

/-- The statement `select { case <-time.After(300 * time.Millisecond): case <-ctx.Done(): }`:
it blocks until the first of the two channels is ready, the timer after 300 milliseconds.
Returns the case that proceeds and the milliseconds waited. -/
def selectWait {W : Type} (ctx : Context W) (w : W) : Wake × Nat :=
  match ctx.doneAfter w with
  | none => (.timer, 300)
  | some d =>
    if d < 300 then (.done, d)
    else if d = 300 then (ctx.tie w, 300)
    else (.timer, 300)

/-- How a call of `MonitorGames` stands: it returned an error value (`none` is `nil`), a panic
unwound through it, or its loop is still running after the iterations that were observed. -/
inductive LoopOutcome where
  | returned (err : Option GoError)
  | panicked
  | running
  deriving DecidableEq, Repr

/-- Everything observable of a call of `MonitorGames`. -/
structure LoopRun (W : Type) where
  outcome : LoopOutcome
  monitor : gameMonitor W
  world : W
  events : List Event

/-- The loop `for { ... }` of `MonitorGames`, observed for at most `fuel` iterations. -/
def MonitorGamesLoop {W : Type} (rt : Runtime W) (ctx : Context W) :
    Nat → gameMonitor W → W → LoopRun W
  | 0, m, w => ⟨.running, m, w, []⟩
  | fuel + 1, m, w =>
    match progressGames rt m w with
    | ⟨.panicked, m1, w1, ev⟩ => ⟨.panicked, m1, w1, ev⟩
    | ⟨.returned err, m1, w1, ev⟩ =>
      match selectWait ctx w1 with
      | (.done, d) =>
        ⟨.returned (ctx.Err (ctx.elapse d w1)), m1, ctx.elapse d w1,
          ev ++ (loggedForCycle err ++ [Event.selectWait d .done])⟩
      | (.timer, d) =>
        let r := MonitorGamesLoop rt ctx fuel m1 (ctx.elapse d w1)
        ⟨r.outcome, r.monitor, r.world,
          ev ++ (loggedForCycle err ++ Event.selectWait d .timer :: r.events)⟩

/-- The method `gameMonitor.MonitorGames`, observed for at most `fuel` iterations of its
loop. -/
def MonitorGames {W : Type} (rt : Runtime W) (ctx : Context W) (fuel : Nat)
    (m : gameMonitor W) (w : W) : LoopRun W :=
  ⟨(MonitorGamesLoop rt ctx fuel m w).outcome, (MonitorGamesLoop rt ctx fuel m w).monitor,
    (MonitorGamesLoop rt ctx fuel m w).world,
    Event.logInfo "Monitoring fault dispute games" :: (MonitorGamesLoop rt ctx fuel m w).events⟩

/-- No event of the list is a `createGame` call for the same address as, and later than, a
successful `createGame` call. -/
def CreatedOnce (ev : List Event) : Prop :=
  ev.Pairwise (fun e1 e2 => ∀ a g res, e1 = Event.createGame a (.ok g) →
    e2 ≠ Event.createGame a res)

/-- The cache discipline: how the map before a piece of execution (`games`), the map after it
(`games'`) and the calls made in between (`ev`) are related. -/
structure Sound (games games' : GameMap) (ev : List Event) : Prop where
  mono : ∀ a g, games.get a = some g → games'.get a = some g
  fresh : ∀ a res, Event.createGame a res ∈ ev → games.get a = none
  stored : ∀ a g, Event.createGame a (.ok g) ∈ ev → games'.get a = some g
  origin : ∀ a g, games'.get a = some g →
    games.get a = some g ∨ Event.createGame a (.ok g) ∈ ev
  once : CreatedOnce ev

/-- Whether an event is a successful `createGame` call for the address `A`. -/
def Event.isCreated (A : Address) : Event → Bool
  | .createGame a (.ok _) => a == A
  | _ => false

/-- Every agent returned by a successful `createGame` call of `ev` has `ProgressGame` called
on it in `ev`. -/
def CreatedProgressed (ev : List Event) : Prop :=
  ∀ a g, Event.createGame a (.ok g) ∈ ev → Event.ProgressGame g ∈ ev

/-- The record was attempted: either its address is bound to an agent in `games'` and
`ProgressGame` was called on that agent in `ev`, or its address is not bound in `games'` and a
`createGame` call for it failed in `ev`. -/
def Attempted (games' : GameMap) (ev : List Event) (game : FaultDisputeGame) : Prop :=
  (∃ g, games'.get game.Proxy = some g ∧ Event.ProgressGame g ∈ ev) ∨
  (games'.get game.Proxy = none ∧ ∃ err, Event.createGame game.Proxy (.error err) ∈ ev)

/-! ## Scripted collaborators for the concrete runs

The world of the scripted runs is the number of listings the game source has served. -/

/-- A block-number fetcher that always reports block 100. -/
def fetchBlock100 : Nat → Returned Uint64 × Nat := fun w => (.ok 100, w)

/-- A game source that serves the given listings one after the other, then empty listings. -/
def sourceOf (listings : List (List Address)) : Int → Nat → Returned (List FaultDisputeGame) × Nat :=
  fun _ w => (.ok ((listings.getD w []).map (fun a => ⟨a, 0⟩)), w + 1)

/-- A game creator that always succeeds; the agent for address `a` is agent `a + 100`. -/
def createAlways : Address → Nat → Returned Agent × Nat := fun a w => (.ok (a + 100), w)

/-- A runtime whose agents all return: agent 110 reports progress, the others do not. The
textual form of an address is of no interest here. -/
def steadyRuntime : Runtime Nat :=
  Runtime.returning (fun agent w => (agent == 110, w)) (fun _ => "0x")

/-- A game creator that fails as long as at most `k` listings have been served and succeeds
afterwards. -/
def createAfter (k : Nat) : Address → Nat → Returned Agent × Nat :=
  fun a w => if w ≤ k then (.error (.leaf "connection refused"), w) else (.ok (a + 100), w)

/-- A game creator that fails for the address `bad` and succeeds for every other address. -/
def createExcept (bad : Address) : Address → Nat → Returned Agent × Nat :=
  fun a w => if a = bad then (.error (.leaf "no such game"), w) else (.ok (a + 100), w)

/-- A runtime in which `ProgressGame` panics on agent 110 and returns `false` on every other
agent. -/
def panickingRuntime : Runtime Nat where
  ProgressGame := fun agent w => (if agent = 110 then none else some false, w)
  addressString := fun _ => "0x"

/-- A game source that always fails. -/
def sourceDown : Int → Nat → Returned (List FaultDisputeGame) × Nat :=
  fun _ w => (.error (.leaf "rpc timeout"), w + 1)

/-- A block-number fetcher that always fails. -/
def fetchBlockDown : Nat → Returned Uint64 × Nat :=
  fun w => (.error (.leaf "no head block"), w)

/-- The monitor of the two-cycle scenario: block number 100, the first listing is 0xA, 0xB
(10 and 11), the second is 0xA, 0xC (10 and 12), and the game creator succeeds. -/
def scenarioMonitor : gameMonitor Nat :=
  newGameMonitor fetchBlock100 (sourceOf [[10, 11], [10, 12]]) createAlways

/-- The block number of a query of the game source, for an event that is one. -/
def Event.queriedBlock : Event → Option Int
  | .FetchAllGamesAtBlock blockNumber => some blockNumber
  | _ => none

/-- A block-number fetcher that always reports the largest `uint64`. -/
def fetchBlockMax : Nat → Returned Uint64 × Nat := fun w => (.ok ⟨2 ^ 64 - 1, by decide⟩, w)

/-- The agent on which `ProgressGame` is called, for an event that is such a call. -/
def Event.progressed : Event → Option Agent
  | .ProgressGame agent => some agent
  | _ => none

/-- Whether an event is a `createGame` call for the address `A`, successful or not. -/
def Event.isCreateCall (A : Address) : Event → Bool
  | .createGame a _ => a == A
  | _ => false

/-- The agent a record has when it is looked at in the monitor `m` and the world `w`: the
agent cached for its address, or else the agent `createGame` returns for its address if that
call succeeds; `none` when the address is not cached and `createGame` fails. -/
def agentOf {W : Type} (m : gameMonitor W) (game : FaultDisputeGame) (w : W) : Option Agent :=
  match m.games.get game.Proxy with
  | some g => some g
  | none =>
    match (m.createGame game.Proxy w).1 with
    | .ok g => some g
    | .error _ => none

/-- Written from the claim on the order of progression: the listing, in listing order,
restricted to the records whose address is cached or whose `createGame` succeeds, each record
replaced by its agent. A record is looked at in the monitor and the world left by the records
before it. -/
def listedAgents {W : Type} (rt : Runtime W) :
    List FaultDisputeGame → gameMonitor W → W → List Agent
  | [], _, _ => []
  | game :: rest, m, w =>
    (agentOf m game w).toList ++
      listedAgents rt rest (progressGame rt m game w).monitor (progressGame rt m game w).world

/-- A game creator that fails when the world is odd and succeeds when it is even, and moves
the world on by one: called in a world that is odd, it fails once and succeeds at the next
call. -/
def createFlaky : Address → Nat → Returned Agent × Nat :=
  fun a w => if w % 2 = 1 then (.error (.leaf "try again"), w + 1) else (.ok (a + 100), w + 1)

/-- Whether an event is a wait in the `select` statement. -/
def Event.isWait : Event → Bool
  | .selectWait _ _ => true
  | _ => false

/-- Whether an event is a call of `fetchBlockNumber`, the first call of every cycle. -/
def Event.isFetchBlockNumber : Event → Bool
  | .fetchBlockNumber => true
  | _ => false

/-- A context that is cancelled in every world. -/
def cancelledContext : Context Nat where
  Err := fun _ => some (.leaf "context canceled")
  doneAfter := fun _ => some 0
  tie := fun _ => .timer
  elapse := fun _ w => w

/-- A context that is cancelled 120 milliseconds into the wait that follows the second listing:
not cancelled while fewer than two listings have been served. -/
def cancelledInSecondWait : Context Nat where
  Err := fun w => if w < 2 then none else some (.leaf "context canceled")
  doneAfter := fun w => if w < 2 then none else some 120
  tie := fun _ => .timer
  elapse := fun _ w => w

/-! ## The map -/

theorem GameMap.get_nil (a : Address) : GameMap.get [] a = none := rfl

theorem GameMap.get_cons (games : GameMap) (k a : Address) (v : Agent) :
    GameMap.get ((k, v) :: games) a = if a = k then some v else GameMap.get games a := by
  unfold GameMap.get
  by_cases h : a = k
  · subst h; simp [List.lookup]
  · have hb : (a == k) = false := by simpa using h
    simp [List.lookup, hb, h]

theorem GameMap.get_filter_ne (games : GameMap) (k a : Address) (h : a ≠ k) :
    GameMap.get (games.filter (fun entry => entry.1 != k)) a = GameMap.get games a := by
  induction games with
  | nil => rfl
  | cons entry rest ih =>
    obtain ⟨k1, v1⟩ := entry
    by_cases hk : k1 = k
    · subst hk
      have : GameMap.get (List.filter (fun entry => entry.1 != k1) rest) a = GameMap.get rest a := ih
      simp [List.filter, GameMap.get_cons, h, this]
    · have hne : (k1 != k) = true := by simpa using hk
      have ih2 : GameMap.get (List.filter (fun entry => entry.1 != k) rest) a = GameMap.get rest a := ih
      simp [List.filter, hne, GameMap.get_cons, ih2]

theorem GameMap.get_set_same (games : GameMap) (k : Address) (v : Agent) :
    (games.set k v).get k = some v := by
  simp [GameMap.set, GameMap.get_cons]

theorem GameMap.get_set_other (games : GameMap) (k a : Address) (v : Agent) (h : a ≠ k) :
    (games.set k v).get a = games.get a := by
  simp [GameMap.set, GameMap.get_cons, h, GameMap.get_filter_ne games k a h]

theorem GameMap.mem_keys_iff (games : GameMap) (a : Address) :
    a ∈ games.keys ↔ ∃ g, games.get a = some g := by
  induction games with
  | nil => simp [GameMap.keys, GameMap.get_nil]
  | cons entry rest ih =>
    obtain ⟨k1, v1⟩ := entry
    have ih2 : a ∈ GameMap.keys rest ↔ ∃ g, GameMap.get rest a = some g := ih
    by_cases hk : a = k1
    · subst hk; simp [GameMap.keys, GameMap.get_cons]
    · have : a ∈ GameMap.keys ((k1, v1) :: rest) ↔ a ∈ GameMap.keys rest := by
        simp [GameMap.keys, hk]
      rw [this, ih2]; simp [GameMap.get_cons, hk]


/-! ## One call of `progressGame` -/

theorem callProgressGame_monitor {W : Type} (rt : Runtime W) (m : gameMonitor W) (game : Agent)
    (w : W) (before : List Event) : (callProgressGame rt m game w before).monitor = m := by
  unfold callProgressGame
  rcases h : rt.ProgressGame game w with ⟨b, w1⟩
  cases b <;> rfl

theorem callProgressGame_events {W : Type} (rt : Runtime W) (m : gameMonitor W) (game : Agent)
    (w : W) (before : List Event) :
    (callProgressGame rt m game w before).events = before ++ [Event.ProgressGame game] := by
  unfold callProgressGame
  rcases h : rt.ProgressGame game w with ⟨b, w1⟩
  cases b <;> rfl

theorem callProgressGame_outcome {W : Type} (rt : Runtime W) (m : gameMonitor W) (game : Agent)
    (w : W) (before : List Event) :
    (callProgressGame rt m game w before).outcome =
      if (rt.ProgressGame game w).1 = none then .panicked else .returned none := by
  unfold callProgressGame
  rcases h : rt.ProgressGame game w with ⟨b, w1⟩
  cases b <;> rfl

theorem callProgressGame_world {W : Type} (rt : Runtime W) (m : gameMonitor W) (game : Agent)
    (w : W) (before : List Event) :
    (callProgressGame rt m game w before).world = (rt.ProgressGame game w).2 := by
  unfold callProgressGame
  rcases h : rt.ProgressGame game w with ⟨b, w1⟩
  cases b <;> rfl

/-- The address is cached: the cached agent is progressed, nothing else happens. -/
theorem progressGame_hit {W : Type} (rt : Runtime W) (m : gameMonitor W)
    (gameData : FaultDisputeGame) (w : W) (game : Agent)
    (h : m.games.get gameData.Proxy = some game) :
    progressGame rt m gameData w = callProgressGame rt m game w [] := by
  unfold progressGame
  rw [h]

/-- The address is not cached and `createGame` fails. -/
theorem progressGame_fail {W : Type} (rt : Runtime W) (m : gameMonitor W)
    (gameData : FaultDisputeGame) (w w1 : W) (err : GoError)
    (h : m.games.get gameData.Proxy = none)
    (hc : m.createGame gameData.Proxy w = (.error err, w1)) :
    progressGame rt m gameData w =
      ⟨.returned (some (Errorf ("failed to progress game " ++ rt.addressString gameData.Proxy
          ++ ": ") err)), m, w1, [Event.createGame gameData.Proxy (.error err)]⟩ := by
  unfold progressGame
  rw [h]
  simp only [hc]

/-- The address is not cached and `createGame` succeeds. -/
theorem progressGame_create {W : Type} (rt : Runtime W) (m : gameMonitor W)
    (gameData : FaultDisputeGame) (w w1 : W) (newGame : Agent)
    (h : m.games.get gameData.Proxy = none)
    (hc : m.createGame gameData.Proxy w = (.ok newGame, w1)) :
    progressGame rt m gameData w =
      callProgressGame rt { m with games := m.games.set gameData.Proxy newGame } newGame w1
        [Event.createGame gameData.Proxy (.ok newGame)] := by
  unfold progressGame
  rw [h]
  simp only [hc]

/-- The three ways a call of `progressGame` can go. -/
theorem progressGame_cases {W : Type} (rt : Runtime W) (m : gameMonitor W)
    (gameData : FaultDisputeGame) (w : W) :
    (∃ game, m.games.get gameData.Proxy = some game ∧
        progressGame rt m gameData w = callProgressGame rt m game w []) ∨
    (∃ err w1, m.games.get gameData.Proxy = none ∧
        m.createGame gameData.Proxy w = (.error err, w1) ∧
        progressGame rt m gameData w =
          ⟨.returned (some (Errorf ("failed to progress game " ++
            rt.addressString gameData.Proxy ++ ": ") err)), m, w1,
            [Event.createGame gameData.Proxy (.error err)]⟩) ∨
    (∃ newGame w1, m.games.get gameData.Proxy = none ∧
        m.createGame gameData.Proxy w = (.ok newGame, w1) ∧
        progressGame rt m gameData w =
          callProgressGame rt { m with games := m.games.set gameData.Proxy newGame } newGame w1
            [Event.createGame gameData.Proxy (.ok newGame)]) := by
  cases h : m.games.get gameData.Proxy with
  | some game => exact Or.inl ⟨game, rfl, progressGame_hit rt m gameData w game h⟩
  | none =>
    rcases hc : m.createGame gameData.Proxy w with ⟨res, w1⟩
    cases res with
    | error err => exact Or.inr (Or.inl ⟨err, w1, rfl, rfl, progressGame_fail rt m gameData w w1 err h hc⟩)
    | ok newGame =>
      exact Or.inr (Or.inr ⟨newGame, w1, rfl, rfl, progressGame_create rt m gameData w w1 newGame h hc⟩)

/-! ## The cache discipline -/

theorem Sound.quiet (games : GameMap) (ev : List Event)
    (h : ∀ a res, Event.createGame a res ∉ ev) : Sound games games ev where
  mono := fun _ _ hg => hg
  fresh := fun a res hmem => absurd hmem (h a res)
  stored := fun a g hmem => absurd hmem (h a (.ok g))
  origin := fun _ _ hg => Or.inl hg
  once := by
    unfold CreatedOnce
    rw [List.pairwise_iff_forall_sublist]
    intro e1 e2 hsub a g res he1 _
    have : e1 ∈ ev := hsub.subset (by simp)
    exact absurd (he1 ▸ this) (h a (.ok g))

theorem Sound.trans {g0 g1 g2 : GameMap} {e1 e2 : List Event}
    (h1 : Sound g0 g1 e1) (h2 : Sound g1 g2 e2) : Sound g0 g2 (e1 ++ e2) where
  mono := fun a g hg => h2.mono a g (h1.mono a g hg)
  fresh := by
    intro a res hmem
    rcases List.mem_append.mp hmem with hm | hm
    · exact h1.fresh a res hm
    · have hn := h2.fresh a res hm
      cases hg : g0.get a with
      | none => rfl
      | some g => rw [h1.mono a g hg] at hn; cases hn
  stored := by
    intro a g hmem
    rcases List.mem_append.mp hmem with hm | hm
    · exact h2.mono a g (h1.stored a g hm)
    · exact h2.stored a g hm
  origin := by
    intro a g hg
    rcases h2.origin a g hg with h | h
    · rcases h1.origin a g h with h' | h'
      · exact Or.inl h'
      · exact Or.inr (List.mem_append.mpr (Or.inl h'))
    · exact Or.inr (List.mem_append.mpr (Or.inr h))
  once := by
    unfold CreatedOnce
    rw [List.pairwise_append]
    refine ⟨h1.once, h2.once, ?_⟩
    intro x hx y hy a g res hxe hye
    subst hxe; subst hye
    have hs := h1.stored a g hx
    have hf := h2.fresh a res hy
    rw [hs] at hf; cases hf

theorem progressGame_sound {W : Type} (rt : Runtime W) (m : gameMonitor W)
    (gameData : FaultDisputeGame) (w : W) :
    Sound m.games (progressGame rt m gameData w).monitor.games
      (progressGame rt m gameData w).events := by
  rcases progressGame_cases rt m gameData w with ⟨game, _, heq⟩ | ⟨err, w1, hn, _, heq⟩ |
    ⟨newGame, w1, hn, _, heq⟩
  · rw [heq, callProgressGame_monitor, callProgressGame_events]
    exact Sound.quiet _ _ (by simp)
  · rw [heq]
    refine ⟨fun _ _ hg => hg, ?_, ?_, fun _ _ hg => Or.inl hg, ?_⟩
    · intro a res hmem
      simp only [List.mem_singleton, Event.createGame.injEq] at hmem
      rw [hmem.1]; exact hn
    · intro a g hmem
      simp at hmem
    · simp [CreatedOnce]
  · rw [heq, callProgressGame_monitor, callProgressGame_events]
    refine ⟨?_, ?_, ?_, ?_, ?_⟩
    · intro a g hg
      have hne : a ≠ gameData.Proxy := by
        intro h; rw [h, hn] at hg; cases hg
      show (m.games.set gameData.Proxy newGame).get a = some g
      rw [GameMap.get_set_other _ _ _ _ hne]; exact hg
    · intro a res hmem
      simp at hmem
      rw [hmem.1]; exact hn
    · intro a g hmem
      simp at hmem
      show (m.games.set gameData.Proxy newGame).get a = some g
      rw [hmem.1, hmem.2]; exact GameMap.get_set_same _ _ _
    · intro a g hg
      have hg' : (m.games.set gameData.Proxy newGame).get a = some g := hg
      by_cases hne : a = gameData.Proxy
      · rw [hne, GameMap.get_set_same] at hg'
        right; simp [hne]; cases hg'; rfl
      · rw [GameMap.get_set_other _ _ _ _ hne] at hg'
        exact Or.inl hg'
    · simp [CreatedOnce]

theorem progressGame_frame {W : Type} (rt : Runtime W) (m : gameMonitor W)
    (gameData : FaultDisputeGame) (w : W) :
    (progressGame rt m gameData w).monitor.source = m.source ∧
    (progressGame rt m gameData w).monitor.createGame = m.createGame ∧
    (progressGame rt m gameData w).monitor.fetchBlockNumber = m.fetchBlockNumber := by
  rcases progressGame_cases rt m gameData w with ⟨game, _, heq⟩ | ⟨err, w1, _, _, heq⟩ |
    ⟨newGame, w1, _, _, heq⟩
  · rw [heq, callProgressGame_monitor]; exact ⟨rfl, rfl, rfl⟩
  · rw [heq]; exact ⟨rfl, rfl, rfl⟩
  · rw [heq, callProgressGame_monitor]; exact ⟨rfl, rfl, rfl⟩


/-! ## The loop over the listing -/

theorem progressGamesLoop_panicked {W : Type} (rt : Runtime W) (game : FaultDisputeGame)
    (rest : List FaultDisputeGame) (m : gameMonitor W) (w : W)
    (h : (progressGame rt m game w).outcome = .panicked) :
    progressGamesLoop rt (game :: rest) m w =
      ⟨.panicked, (progressGame rt m game w).monitor, (progressGame rt m game w).world,
        (progressGame rt m game w).events⟩ := by
  rw [progressGamesLoop]
  rcases hr : progressGame rt m game w with ⟨o, m1, w1, ev⟩
  rw [hr] at h
  simp only at h
  subst h
  rfl

theorem progressGamesLoop_returned {W : Type} (rt : Runtime W) (game : FaultDisputeGame)
    (rest : List FaultDisputeGame) (m : gameMonitor W) (w : W) (e : Option GoError)
    (h : (progressGame rt m game w).outcome = .returned e) :
    progressGamesLoop rt (game :: rest) m w =
      ⟨(progressGamesLoop rt rest (progressGame rt m game w).monitor
          (progressGame rt m game w).world).outcome,
        (progressGamesLoop rt rest (progressGame rt m game w).monitor
          (progressGame rt m game w).world).monitor,
        (progressGamesLoop rt rest (progressGame rt m game w).monitor
          (progressGame rt m game w).world).world,
        (progressGame rt m game w).events ++ (loggedFor game e ++
          (progressGamesLoop rt rest (progressGame rt m game w).monitor
            (progressGame rt m game w).world).events)⟩ := by
  rw [progressGamesLoop]
  rcases hr : progressGame rt m game w with ⟨o, m1, w1, ev⟩
  rw [hr] at h
  simp only at h
  subst h
  cases e <;> rfl

theorem loggedFor_quiet (game : FaultDisputeGame) (e : Option GoError) (a : Address)
    (res : Returned Agent) : Event.createGame a res ∉ loggedFor game e := by
  cases e <;> simp [loggedFor]

theorem progressGamesLoop_sound {W : Type} (rt : Runtime W) (games : List FaultDisputeGame) :
    ∀ (m : gameMonitor W) (w : W),
      Sound m.games (progressGamesLoop rt games m w).monitor.games
        (progressGamesLoop rt games m w).events := by
  induction games with
  | nil => intro m w; exact Sound.quiet _ _ (by simp [progressGamesLoop])
  | cons game rest ih =>
    intro m w
    have h1 := progressGame_sound rt m game w
    cases ho : (progressGame rt m game w).outcome with
    | panicked => rw [progressGamesLoop_panicked rt game rest m w ho]; exact h1
    | returned e =>
      rw [progressGamesLoop_returned rt game rest m w e ho]
      exact h1.trans ((Sound.quiet _ _ (loggedFor_quiet game e)).trans (ih _ _))

theorem progressGamesLoop_frame {W : Type} (rt : Runtime W) (games : List FaultDisputeGame) :
    ∀ (m : gameMonitor W) (w : W),
      (progressGamesLoop rt games m w).monitor.source = m.source ∧
      (progressGamesLoop rt games m w).monitor.createGame = m.createGame ∧
      (progressGamesLoop rt games m w).monitor.fetchBlockNumber = m.fetchBlockNumber := by
  induction games with
  | nil => intro m w; exact ⟨rfl, rfl, rfl⟩
  | cons game rest ih =>
    intro m w
    have h1 := progressGame_frame rt m game w
    cases ho : (progressGame rt m game w).outcome with
    | panicked => rw [progressGamesLoop_panicked rt game rest m w ho]; exact h1
    | returned e =>
      rw [progressGamesLoop_returned rt game rest m w e ho]
      have h2 := ih (progressGame rt m game w).monitor (progressGame rt m game w).world
      exact ⟨h2.1.trans h1.1, h2.2.1.trans h1.2.1, h2.2.2.trans h1.2.2⟩

/-! ## One cycle -/

/-- The cycle when the block number cannot be fetched. -/
theorem progressGames_blockNumber_error {W : Type} (rt : Runtime W) (m : gameMonitor W)
    (w w1 : W) (err : GoError) (hbn : m.fetchBlockNumber w = (.error err, w1)) :
    progressGames rt m w =
      ⟨.returned (some (Errorf "failed to load current block number: " err)), m, w1,
        [Event.fetchBlockNumber]⟩ := by
  unfold progressGames
  simp only [hbn]

/-- The cycle when the games cannot be listed. -/
theorem progressGames_source_error {W : Type} (rt : Runtime W) (m : gameMonitor W)
    (w w1 w2 : W) (blockNum : Uint64) (err : GoError)
    (hbn : m.fetchBlockNumber w = (.ok blockNum, w1))
    (hsrc : m.source (SetUint64 blockNum) w1 = (.error err, w2)) :
    progressGames rt m w =
      ⟨.returned (some (Errorf "failed to load games: " err)), m, w2,
        [Event.fetchBlockNumber, Event.FetchAllGamesAtBlock (SetUint64 blockNum)]⟩ := by
  unfold progressGames
  simp only [hbn, hsrc]

/-- The cycle when block number and listing are obtained. -/
theorem progressGames_listed {W : Type} (rt : Runtime W) (m : gameMonitor W)
    (w w1 w2 : W) (blockNum : Uint64) (games : List FaultDisputeGame)
    (hbn : m.fetchBlockNumber w = (.ok blockNum, w1))
    (hsrc : m.source (SetUint64 blockNum) w1 = (.ok games, w2)) :
    progressGames rt m w =
      ⟨cycleOutcome (progressGamesLoop rt games m w2).outcome,
        (progressGamesLoop rt games m w2).monitor, (progressGamesLoop rt games m w2).world,
        Event.fetchBlockNumber :: Event.FetchAllGamesAtBlock (SetUint64 blockNum) ::
          (progressGamesLoop rt games m w2).events⟩ := by
  unfold progressGames
  simp only [hbn, hsrc]
  rcases hr : progressGamesLoop rt games m w2 with ⟨o, m3, w3, ev⟩
  cases o <;> rfl

/-- The three ways a cycle can go. -/
theorem progressGames_cases {W : Type} (m : gameMonitor W) (w : W) :
    (∃ err w1, m.fetchBlockNumber w = (.error err, w1)) ∨
    (∃ blockNum w1 err w2, m.fetchBlockNumber w = (.ok blockNum, w1) ∧
      m.source (SetUint64 blockNum) w1 = (.error err, w2)) ∨
    (∃ blockNum w1 games w2, m.fetchBlockNumber w = (.ok blockNum, w1) ∧
      m.source (SetUint64 blockNum) w1 = (.ok games, w2)) := by
  rcases hbn : m.fetchBlockNumber w with ⟨res, w1⟩
  cases res with
  | error err => exact Or.inl ⟨err, w1, rfl⟩
  | ok blockNum =>
    rcases hsrc : m.source (SetUint64 blockNum) w1 with ⟨res2, w2⟩
    cases res2 with
    | error err => exact Or.inr (Or.inl ⟨blockNum, w1, err, w2, rfl, hsrc⟩)
    | ok games => exact Or.inr (Or.inr ⟨blockNum, w1, games, w2, rfl, hsrc⟩)

theorem progressGames_sound {W : Type} (rt : Runtime W) (m : gameMonitor W) (w : W) :
    Sound m.games (progressGames rt m w).monitor.games (progressGames rt m w).events := by
  rcases progressGames_cases m w with ⟨err, w1, hbn⟩ | ⟨bn, w1, err, w2, hbn, hsrc⟩ |
    ⟨bn, w1, games, w2, hbn, hsrc⟩
  · rw [progressGames_blockNumber_error rt m w w1 err hbn]
    exact Sound.quiet _ _ (by simp)
  · rw [progressGames_source_error rt m w w1 w2 bn err hbn hsrc]
    exact Sound.quiet _ _ (by simp)
  · rw [progressGames_listed rt m w w1 w2 bn games hbn hsrc]
    have h0 : Sound m.games m.games
        [Event.fetchBlockNumber, Event.FetchAllGamesAtBlock (SetUint64 bn)] :=
      Sound.quiet _ _ (by simp)
    exact h0.trans (progressGamesLoop_sound rt games m w2)

theorem progressGames_frame {W : Type} (rt : Runtime W) (m : gameMonitor W) (w : W) :
    (progressGames rt m w).monitor.source = m.source ∧
    (progressGames rt m w).monitor.createGame = m.createGame ∧
    (progressGames rt m w).monitor.fetchBlockNumber = m.fetchBlockNumber := by
  rcases progressGames_cases m w with ⟨err, w1, hbn⟩ | ⟨bn, w1, err, w2, hbn, hsrc⟩ |
    ⟨bn, w1, games, w2, hbn, hsrc⟩
  · rw [progressGames_blockNumber_error rt m w w1 err hbn]; exact ⟨rfl, rfl, rfl⟩
  · rw [progressGames_source_error rt m w w1 w2 bn err hbn hsrc]; exact ⟨rfl, rfl, rfl⟩
  · rw [progressGames_listed rt m w w1 w2 bn games hbn hsrc]
    exact progressGamesLoop_frame rt games m w2

/-! ## Several cycles -/

theorem cycles_panicked {W : Type} (rt : Runtime W) (n : Nat) (m : gameMonitor W) (w : W)
    (h : (progressGames rt m w).outcome = .panicked) :
    cycles rt (n + 1) m w =
      ⟨.panicked, (progressGames rt m w).monitor, (progressGames rt m w).world,
        (progressGames rt m w).events⟩ := by
  rw [cycles]
  rcases hr : progressGames rt m w with ⟨o, m1, w1, ev⟩
  rw [hr] at h
  simp only at h
  subst h
  rfl

theorem cycles_returned {W : Type} (rt : Runtime W) (n : Nat) (m : gameMonitor W) (w : W)
    (e : Option GoError) (h : (progressGames rt m w).outcome = .returned e) :
    cycles rt (n + 1) m w =
      ⟨(cycles rt n (progressGames rt m w).monitor (progressGames rt m w).world).outcome,
        (cycles rt n (progressGames rt m w).monitor (progressGames rt m w).world).monitor,
        (cycles rt n (progressGames rt m w).monitor (progressGames rt m w).world).world,
        (progressGames rt m w).events ++ (loggedForCycle e ++
          (cycles rt n (progressGames rt m w).monitor (progressGames rt m w).world).events)⟩ := by
  rw [cycles]
  rcases hr : progressGames rt m w with ⟨o, m1, w1, ev⟩
  rw [hr] at h
  simp only at h
  subst h
  cases e <;> rfl

theorem loggedForCycle_quiet (e : Option GoError) (a : Address) (res : Returned Agent) :
    Event.createGame a res ∉ loggedForCycle e := by
  cases e <;> simp [loggedForCycle]

theorem cycles_sound {W : Type} (rt : Runtime W) (n : Nat) :
    ∀ (m : gameMonitor W) (w : W),
      Sound m.games (cycles rt n m w).monitor.games (cycles rt n m w).events := by
  induction n with
  | zero => intro m w; exact Sound.quiet _ _ (by simp [cycles])
  | succ n ih =>
    intro m w
    have h1 := progressGames_sound rt m w
    cases ho : (progressGames rt m w).outcome with
    | panicked => rw [cycles_panicked rt n m w ho]; exact h1
    | returned e =>
      rw [cycles_returned rt n m w e ho]
      exact h1.trans ((Sound.quiet _ _ (loggedForCycle_quiet e)).trans (ih _ _))

/-! ## Every listed record is attempted -/

theorem CreatedProgressed.append {e1 e2 : List Event} (h1 : CreatedProgressed e1)
    (h2 : CreatedProgressed e2) : CreatedProgressed (e1 ++ e2) := by
  intro a g hmem
  rcases List.mem_append.mp hmem with h | h
  · exact List.mem_append.mpr (Or.inl (h1 a g h))
  · exact List.mem_append.mpr (Or.inr (h2 a g h))

theorem CreatedProgressed.of_no_create {ev : List Event}
    (h : ∀ a res, Event.createGame a res ∉ ev) : CreatedProgressed ev :=
  fun a g hmem => absurd hmem (h a (.ok g))

theorem progressGame_createdProgressed {W : Type} (rt : Runtime W) (m : gameMonitor W)
    (gameData : FaultDisputeGame) (w : W) :
    CreatedProgressed (progressGame rt m gameData w).events := by
  rcases progressGame_cases rt m gameData w with ⟨game, _, heq⟩ | ⟨err, w1, _, _, heq⟩ |
    ⟨newGame, w1, _, _, heq⟩
  · rw [heq, callProgressGame_events]; exact CreatedProgressed.of_no_create (by simp)
  · rw [heq]; intro a g hmem; simp at hmem
  · rw [heq, callProgressGame_events]
    intro a g hmem
    simp at hmem
    simp [hmem.2]

theorem progressGamesLoop_createdProgressed {W : Type} (rt : Runtime W)
    (games : List FaultDisputeGame) :
    ∀ (m : gameMonitor W) (w : W), CreatedProgressed (progressGamesLoop rt games m w).events := by
  induction games with
  | nil => intro m w; exact CreatedProgressed.of_no_create (by simp [progressGamesLoop])
  | cons game rest ih =>
    intro m w
    have h1 := progressGame_createdProgressed rt m game w
    cases ho : (progressGame rt m game w).outcome with
    | panicked => rw [progressGamesLoop_panicked rt game rest m w ho]; exact h1
    | returned e =>
      rw [progressGamesLoop_returned rt game rest m w e ho]
      exact h1.append ((CreatedProgressed.of_no_create (loggedFor_quiet game e)).append (ih _ _))

/-- A call of `progressGame` that does not panic attempts its record. -/
theorem progressGame_attempted {W : Type} (rt : Runtime W) (m : gameMonitor W)
    (gameData : FaultDisputeGame) (w : W) :
    Attempted (progressGame rt m gameData w).monitor.games (progressGame rt m gameData w).events
      gameData := by
  rcases progressGame_cases rt m gameData w with ⟨game, hg, heq⟩ | ⟨err, w1, hn, _, heq⟩ |
    ⟨newGame, w1, _, _, heq⟩
  · rw [heq, callProgressGame_monitor, callProgressGame_events]
    exact Or.inl ⟨game, hg, by simp⟩
  · rw [heq]
    exact Or.inr ⟨hn, err, by simp⟩
  · rw [heq, callProgressGame_monitor, callProgressGame_events]
    exact Or.inl ⟨newGame, GameMap.get_set_same _ _ _, by simp⟩

/-- A record attempted in a first stretch of execution stays attempted when more execution
follows. -/
theorem Attempted.extend {g1 g2 : GameMap} {e1 e2 : List Event} {game : FaultDisputeGame}
    (h : Attempted g1 e1 game) (hs : Sound g1 g2 e2) (hp : CreatedProgressed e2) :
    Attempted g2 (e1 ++ e2) game := by
  rcases h with ⟨g, hg, hmem⟩ | ⟨hn, err, hmem⟩
  · exact Or.inl ⟨g, hs.mono _ _ hg, List.mem_append.mpr (Or.inl hmem)⟩
  · cases hfin : g2.get game.Proxy with
    | none => exact Or.inr ⟨hfin, err, List.mem_append.mpr (Or.inl hmem)⟩
    | some g =>
      rcases hs.origin _ _ hfin with h' | h'
      · rw [hn] at h'; cases h'
      · exact Or.inl ⟨g, hfin, List.mem_append.mpr (Or.inr (hp _ _ h'))⟩

theorem Attempted.later (e1 : List Event) {g2 : GameMap} {e2 : List Event}
    {game : FaultDisputeGame}
    (h : Attempted g2 e2 game) : Attempted g2 (e1 ++ e2) game := by
  rcases h with ⟨g, hg, hmem⟩ | ⟨hn, err, hmem⟩
  · exact Or.inl ⟨g, hg, List.mem_append.mpr (Or.inr hmem)⟩
  · exact Or.inr ⟨hn, err, List.mem_append.mpr (Or.inr hmem)⟩

/-- A loop that is not cut short by a panic attempts every record of the listing. -/
theorem progressGamesLoop_attempted {W : Type} (rt : Runtime W)
    (games : List FaultDisputeGame) :
    ∀ (m : gameMonitor W) (w : W), (progressGamesLoop rt games m w).outcome ≠ .panicked →
      ∀ game ∈ games, Attempted (progressGamesLoop rt games m w).monitor.games
        (progressGamesLoop rt games m w).events game := by
  induction games with
  | nil => intro m w _ game hmem; cases hmem
  | cons first rest ih =>
    intro m w hout game hmem
    cases ho : (progressGame rt m first w).outcome with
    | panicked =>
      rw [progressGamesLoop_panicked rt first rest m w ho] at hout
      exact absurd rfl hout
    | returned e =>
      rw [progressGamesLoop_returned rt first rest m w e ho] at hout ⊢
      have hrest : Sound (progressGame rt m first w).monitor.games
          (progressGamesLoop rt rest (progressGame rt m first w).monitor
            (progressGame rt m first w).world).monitor.games
          (loggedFor first e ++ (progressGamesLoop rt rest (progressGame rt m first w).monitor
            (progressGame rt m first w).world).events) :=
        (Sound.quiet _ _ (loggedFor_quiet first e)).trans (progressGamesLoop_sound rt rest _ _)
      have hprog : CreatedProgressed
          (loggedFor first e ++ (progressGamesLoop rt rest (progressGame rt m first w).monitor
            (progressGame rt m first w).world).events) :=
        (CreatedProgressed.of_no_create (loggedFor_quiet first e)).append
          (progressGamesLoop_createdProgressed rt rest _ _)
      rcases List.mem_cons.mp hmem with hfirst | hrestmem
      · subst hfirst
        exact (progressGame_attempted rt m game w).extend hrest hprog
      · have := ih _ _ hout game hrestmem
        exact Attempted.later _ (Attempted.later _ this)

/-- With agents that return, `progressGame` returns. -/
theorem progressGame_returning {W : Type} (ProgressGame : Agent → W → Bool × W)
    (addressString : Address → String) (m : gameMonitor W) (gameData : FaultDisputeGame)
    (w : W) :
    (progressGame (Runtime.returning ProgressGame addressString) m gameData w).outcome
      ≠ .panicked := by
  rcases progressGame_cases (Runtime.returning ProgressGame addressString) m gameData w with
    ⟨game, _, heq⟩ | ⟨err, w1, _, _, heq⟩ | ⟨newGame, w1, _, _, heq⟩
  · rw [heq, callProgressGame_outcome]; simp [Runtime.returning]
  · rw [heq]; simp
  · rw [heq, callProgressGame_outcome]; simp [Runtime.returning]

/-- With agents that return, the loop over the listing returns. -/
theorem progressGamesLoop_returning {W : Type} (ProgressGame : Agent → W → Bool × W)
    (addressString : Address → String) (games : List FaultDisputeGame) :
    ∀ (m : gameMonitor W) (w : W),
      (progressGamesLoop (Runtime.returning ProgressGame addressString) games m w).outcome
        = .returned () := by
  induction games with
  | nil => intro m w; rfl
  | cons first rest ih =>
    intro m w
    cases ho : (progressGame (Runtime.returning ProgressGame addressString) m first w).outcome with
    | panicked => exact absurd ho (progressGame_returning ProgressGame addressString m first w)
    | returned e =>
      rw [progressGamesLoop_returned _ first rest m w e ho]
      exact ih _ _

theorem cycles_frame {W : Type} (rt : Runtime W) (n : Nat) :
    ∀ (m : gameMonitor W) (w : W),
      (cycles rt n m w).monitor.source = m.source ∧
      (cycles rt n m w).monitor.createGame = m.createGame ∧
      (cycles rt n m w).monitor.fetchBlockNumber = m.fetchBlockNumber := by
  induction n with
  | zero => intro m w; exact ⟨rfl, rfl, rfl⟩
  | succ n ih =>
    intro m w
    have h1 := progressGames_frame rt m w
    cases ho : (progressGames rt m w).outcome with
    | panicked => rw [cycles_panicked rt n m w ho]; exact h1
    | returned e =>
      rw [cycles_returned rt n m w e ho]
      have h2 := ih (progressGames rt m w).monitor (progressGames rt m w).world
      exact ⟨h2.1.trans h1.1, h2.2.1.trans h1.2.1, h2.2.2.trans h1.2.2⟩

theorem progressGames_createdProgressed {W : Type} (rt : Runtime W) (m : gameMonitor W)
    (w : W) : CreatedProgressed (progressGames rt m w).events := by
  rcases progressGames_cases m w with ⟨err, w1, hbn⟩ | ⟨bn, w1, err, w2, hbn, hsrc⟩ |
    ⟨bn, w1, games, w2, hbn, hsrc⟩
  · rw [progressGames_blockNumber_error rt m w w1 err hbn]
    exact CreatedProgressed.of_no_create (by simp)
  · rw [progressGames_source_error rt m w w1 w2 bn err hbn hsrc]
    exact CreatedProgressed.of_no_create (by simp)
  · rw [progressGames_listed rt m w w1 w2 bn games hbn hsrc]
    have h0 : CreatedProgressed
        [Event.fetchBlockNumber, Event.FetchAllGamesAtBlock (SetUint64 bn)] :=
      CreatedProgressed.of_no_create (by simp)
    exact h0.append (progressGamesLoop_createdProgressed rt games m w2)

/-- A cycle whose discovery succeeds and that is not cut short by a panic attempts every
listed record. -/
theorem progressGames_attempted {W : Type} (rt : Runtime W) (m : gameMonitor W)
    (w w1 w2 : W) (blockNum : Uint64) (listing : List FaultDisputeGame)
    (hbn : m.fetchBlockNumber w = (.ok blockNum, w1))
    (hsrc : m.source (SetUint64 blockNum) w1 = (.ok listing, w2))
    (hout : (progressGames rt m w).outcome ≠ .panicked) :
    ∀ game ∈ listing,
      Attempted (progressGames rt m w).monitor.games (progressGames rt m w).events game := by
  rw [progressGames_listed rt m w w1 w2 blockNum listing hbn hsrc] at hout ⊢
  intro game hmem
  have hloop : (progressGamesLoop rt listing m w2).outcome ≠ .panicked := by
    intro h; rw [h] at hout; exact hout rfl
  have := progressGamesLoop_attempted rt listing m w2 hloop game hmem
  exact Attempted.later [Event.fetchBlockNumber,
    Event.FetchAllGamesAtBlock (SetUint64 blockNum)] this

/-- An attempted record whose address was bound before is progressed on the agent it was
bound to. -/
theorem Attempted.of_cached {g1 g2 : GameMap} {ev : List Event} {game : FaultDisputeGame}
    (h : Attempted g2 ev game) (hs : Sound g1 g2 ev) (g : Agent)
    (hg : g1.get game.Proxy = some g) : Event.ProgressGame g ∈ ev := by
  have hfin := hs.mono _ _ hg
  rcases h with ⟨g', hg', hmem⟩ | ⟨hn, _⟩
  · rw [hfin] at hg'; cases hg'; exact hmem
  · rw [hfin] at hn; cases hn

/-- An attempted record whose address was not bound before has had `createGame` called. -/
theorem Attempted.of_uncached {g1 g2 : GameMap} {ev : List Event} {game : FaultDisputeGame}
    (h : Attempted g2 ev game) (hs : Sound g1 g2 ev) (hn : g1.get game.Proxy = none) :
    ∃ res, Event.createGame game.Proxy res ∈ ev := by
  rcases h with ⟨g', hg', _⟩ | ⟨_, err, hmem⟩
  · rcases hs.origin _ _ hg' with h' | h'
    · rw [hn] at h'; cases h'
    · exact ⟨_, h'⟩
  · exact ⟨_, hmem⟩

/-- With agents that return, the cycle returns. -/
theorem progressGames_returning {W : Type} (ProgressGame : Agent → W → Bool × W)
    (addressString : Address → String) (m : gameMonitor W) (w : W) :
    (progressGames (Runtime.returning ProgressGame addressString) m w).outcome ≠ .panicked := by
  rcases progressGames_cases m w with ⟨err, w1, hbn⟩ | ⟨bn, w1, err, w2, hbn, hsrc⟩ |
    ⟨bn, w1, games, w2, hbn, hsrc⟩
  · rw [progressGames_blockNumber_error _ m w w1 err hbn]; simp
  · rw [progressGames_source_error _ m w w1 w2 bn err hbn hsrc]; simp
  · rw [progressGames_listed _ m w w1 w2 bn games hbn hsrc,
      progressGamesLoop_returning ProgressGame addressString games m w2]
    simp [cycleOutcome]

/-! ## Where `createGame` calls come from -/

/-- A `createGame` call made by `progressGame` is for the address of its record. -/
theorem progressGame_create_address {W : Type} (rt : Runtime W) (m : gameMonitor W)
    (gameData : FaultDisputeGame) (w : W) (a : Address) (res : Returned Agent)
    (h : Event.createGame a res ∈ (progressGame rt m gameData w).events) :
    a = gameData.Proxy := by
  rcases progressGame_cases rt m gameData w with ⟨game, _, heq⟩ | ⟨err, w1, _, _, heq⟩ |
    ⟨newGame, w1, _, _, heq⟩
  · rw [heq, callProgressGame_events] at h; simp at h
  · rw [heq] at h; simp at h; exact h.1
  · rw [heq, callProgressGame_events] at h; simp at h; exact h.1

/-- A `createGame` call made by the loop is made by the call of `progressGame` on one of the
listed records, after the records before it have been processed. -/
theorem progressGamesLoop_create_origin {W : Type} (rt : Runtime W)
    (listing : List FaultDisputeGame) :
    ∀ (m : gameMonitor W) (w : W) (a : Address) (res : Returned Agent),
      Event.createGame a res ∈ (progressGamesLoop rt listing m w).events →
      ∃ pre game post, listing = pre ++ game :: post ∧
        Event.createGame a res ∈ (progressGame rt (progressGamesLoop rt pre m w).monitor game
          (progressGamesLoop rt pre m w).world).events := by
  induction listing with
  | nil => intro m w a res h; simp [progressGamesLoop] at h
  | cons first rest ih =>
    intro m w a res h
    have hhead : Event.createGame a res ∈ (progressGame rt m first w).events →
        ∃ pre game post, first :: rest = pre ++ game :: post ∧
          Event.createGame a res ∈ (progressGame rt (progressGamesLoop rt pre m w).monitor game
            (progressGamesLoop rt pre m w).world).events :=
      fun h1 => ⟨[], first, rest, rfl, h1⟩
    cases ho : (progressGame rt m first w).outcome with
    | panicked =>
      rw [progressGamesLoop_panicked rt first rest m w ho] at h
      exact hhead h
    | returned e =>
      rw [progressGamesLoop_returned rt first rest m w e ho] at h
      rcases List.mem_append.mp h with h1 | h2
      · exact hhead h1
      · rcases List.mem_append.mp h2 with h3 | h4
        · exact absurd h3 (loggedFor_quiet first e a res)
        · obtain ⟨pre, game, post, hsplit, hmem⟩ := ih _ _ a res h4
          refine ⟨first :: pre, game, post, by rw [hsplit]; rfl, ?_⟩
          rw [progressGamesLoop_returned rt first pre m w e ho]
          exact hmem

/-! ## Properties of the monitor -/

theorem CreatedOnce.not_after {ev pre post : List Event} {A : Address} {g : Agent}
    (h : CreatedOnce ev) (hsplit : ev = pre ++ Event.createGame A (.ok g) :: post)
    (res : Returned Agent) : Event.createGame A res ∉ post := by
  subst hsplit
  unfold CreatedOnce at h
  rw [List.pairwise_append, List.pairwise_cons] at h
  intro hmem
  exact h.2.1.1 _ hmem A g res rfl rfl

theorem CreatedOnce.countP_le_one {ev : List Event} (h : CreatedOnce ev) (A : Address) :
    ev.countP (Event.isCreated A) ≤ 1 := by
  induction ev with
  | nil => simp
  | cons e rest ih =>
    unfold CreatedOnce at h
    rw [List.pairwise_cons] at h
    have ih2 := ih h.2
    by_cases he : Event.isCreated A e = true
    · have hzero : rest.countP (Event.isCreated A) = 0 := by
        rw [List.countP_eq_zero]
        intro x hx hxc
        cases e with
        | createGame a r =>
          cases r with
          | ok g =>
            cases x with
            | createGame a2 r2 =>
              cases r2 with
              | ok g2 =>
                simp only [Event.isCreated, beq_iff_eq] at he hxc
                subst he; subst hxc
                exact h.1 _ hx _ _ (.ok g2) rfl rfl
              | error _ => simp [Event.isCreated] at hxc
            | _ => simp [Event.isCreated] at hxc
          | error _ => simp [Event.isCreated] at he
        | _ => simp [Event.isCreated] at he
      rw [List.countP_cons_of_pos _ _ he, hzero]
    · rw [List.countP_cons_of_neg _ _ he]; exact ih2

/-- C1 (single-agent invariant): starting from the monitor built by `newGameMonitor`, over any
number of consecutive cycles, whatever the collaborators answer, once a `createGame` call for
an address `A` has succeeded no later `createGame` call for `A` is made, and so at most one
`createGame` call for `A` succeeds in the whole run. -/
theorem C1_created_at_most_once {W : Type} (rt : Runtime W)
    (fetchBlockNumber : W → Returned Uint64 × W)
    (source : Int → W → Returned (List FaultDisputeGame) × W)
    (createGame : Address → W → Returned Agent × W) (w : W) (n : Nat) (A : Address) :
    (∀ (pre post : List Event) (g : Agent),
      (cycles rt n (newGameMonitor fetchBlockNumber source createGame) w).events =
          pre ++ Event.createGame A (.ok g) :: post →
        ∀ res, Event.createGame A res ∉ post) ∧
    (cycles rt n (newGameMonitor fetchBlockNumber source createGame) w).events.countP
      (Event.isCreated A) ≤ 1 :=
  ⟨fun _ _ _ hsplit res => (cycles_sound rt n _ w).once.not_after hsplit res,
    (cycles_sound rt n _ w).once.countP_le_one A⟩

/-- C2 (the cache only grows and never rebinds): a binding of an address to an agent that is
in the map before a call of `progressGame`, of `progressGames` or of any number of consecutive
cycles is in the map after it with the same agent, whatever the collaborators answer and
whether or not the address is listed again. -/
theorem C2_cache_only_grows {W : Type} (rt : Runtime W) (m : gameMonitor W) (w : W)
    (gameData : FaultDisputeGame) (n : Nat) (a : Address) (g : Agent)
    (h : m.games.get a = some g) :
    (progressGame rt m gameData w).monitor.games.get a = some g ∧
    (progressGames rt m w).monitor.games.get a = some g ∧
    (cycles rt n m w).monitor.games.get a = some g :=
  ⟨(progressGame_sound rt m gameData w).mono a g h, (progressGames_sound rt m w).mono a g h,
    (cycles_sound rt n m w).mono a g h⟩

/-- C2 at a concrete input: address 11 is bound to agent 111, is not listed in the two cycles
that follow (which list 10 and 12), and is still bound to agent 111 afterwards. -/
theorem C2_cache_only_grows_witness :
    GameMap.get [(11, 111)] 11 = some 111 ∧
    (progressGame steadyRuntime
        { newGameMonitor fetchBlock100 (sourceOf [[10], [12]]) createAlways with
          games := [(11, 111)] } ⟨10, 0⟩ 0).monitor.games.get 11 = some 111 ∧
    (progressGames steadyRuntime
        { newGameMonitor fetchBlock100 (sourceOf [[10], [12]]) createAlways with
          games := [(11, 111)] } 0).monitor.games.get 11 = some 111 ∧
    (cycles steadyRuntime 2
        { newGameMonitor fetchBlock100 (sourceOf [[10], [12]]) createAlways with
          games := [(11, 111)] } 0).monitor.games.get 11 = some 111 :=
  ⟨by decide, C2_cache_only_grows steadyRuntime _ 0 ⟨10, 0⟩ 2 11 111 (by decide)⟩

/-- C3, as stated, fails: with a game creator that fails during the first cycle and succeeds
during the second, the third cycle again lists address 13, whose `createGame` call failed in
the first cycle, and makes no `createGame` call: it progresses the agent cached by the second
cycle. -/
theorem C3_not_every_subsequent_cycle :
    (progressGames steadyRuntime
        (newGameMonitor fetchBlock100 (sourceOf [[13], [13], [13]]) (createAfter 1)) 0).events =
      [Event.fetchBlockNumber, Event.FetchAllGamesAtBlock 100,
        Event.createGame 13 (.error (.leaf "connection refused")),
        Event.logError "Error while progressing game" (some 13)
          (Errorf "failed to progress game 0x: " (.leaf "connection refused"))] ∧
    (sourceOf [[13], [13], [13]] 100
        (cycles steadyRuntime 2
          (newGameMonitor fetchBlock100 (sourceOf [[13], [13], [13]]) (createAfter 1)) 0).world).1
      = .ok [⟨13, 0⟩] ∧
    (progressGames steadyRuntime
        (cycles steadyRuntime 2
          (newGameMonitor fetchBlock100 (sourceOf [[13], [13], [13]]) (createAfter 1)) 0).monitor
        (cycles steadyRuntime 2
          (newGameMonitor fetchBlock100 (sourceOf [[13], [13], [13]]) (createAfter 1)) 0).world
      ).events =
      [Event.fetchBlockNumber, Event.FetchAllGamesAtBlock 100, Event.ProgressGame 113] := by
  decide

/-- C3 (retry on construction failure), amended: if a `createGame` call for `A` has failed in
one of the cycles run so far and no `createGame` call for `A` has succeeded in them, then `A`
is not cached, and the next cycle, if its listing contains `A`, calls `createGame` for
`A` again (the agents return from `ProgressGame`). -/
theorem C3_retry_until_created {W : Type} (ProgressGame : Agent → W → Bool × W)
    (addressString : Address → String) (m : gameMonitor W) (w : W) (n : Nat) (A : Address)
    (err : GoError) (blockNum : Uint64) (w1 w2 : W) (listing : List FaultDisputeGame)
    (hfail : Event.createGame A (.error err) ∈
      (cycles (Runtime.returning ProgressGame addressString) n m w).events)
    (hnone : ∀ g, Event.createGame A (.ok g) ∉
      (cycles (Runtime.returning ProgressGame addressString) n m w).events)
    (hbn : m.fetchBlockNumber (cycles (Runtime.returning ProgressGame addressString) n m w).world
      = (.ok blockNum, w1))
    (hsrc : m.source (SetUint64 blockNum) w1 = (.ok listing, w2))
    (hlisted : ∃ game ∈ listing, game.Proxy = A) :
    (cycles (Runtime.returning ProgressGame addressString) n m w).monitor.games.get A = none ∧
    ∃ res, Event.createGame A res ∈
      (progressGames (Runtime.returning ProgressGame addressString)
        (cycles (Runtime.returning ProgressGame addressString) n m w).monitor
        (cycles (Runtime.returning ProgressGame addressString) n m w).world).events := by
  have hs := cycles_sound (Runtime.returning ProgressGame addressString) n m w
  have hfr := cycles_frame (Runtime.returning ProgressGame addressString) n m w
  have huncached :
      (cycles (Runtime.returning ProgressGame addressString) n m w).monitor.games.get A
        = none := by
    cases hfin :
        (cycles (Runtime.returning ProgressGame addressString) n m w).monitor.games.get A with
    | none => rfl
    | some g =>
      rcases hs.origin A g hfin with h | h
      · rw [hs.fresh A _ hfail] at h; cases h
      · exact absurd h (hnone g)
  refine ⟨huncached, ?_⟩
  obtain ⟨game, hmem, hA⟩ := hlisted
  subst hA
  have hbn2 : (cycles (Runtime.returning ProgressGame addressString) n m w).monitor.fetchBlockNumber
      (cycles (Runtime.returning ProgressGame addressString) n m w).world = (.ok blockNum, w1) := by
    rw [hfr.2.2]; exact hbn
  have hsrc2 : (cycles (Runtime.returning ProgressGame addressString) n m w).monitor.source
      (SetUint64 blockNum) w1 = (.ok listing, w2) := by
    rw [hfr.1]; exact hsrc
  exact (progressGames_attempted _ _ _ w1 w2 blockNum listing hbn2 hsrc2
    (progressGames_returning ProgressGame addressString _ _) game hmem).of_uncached
    (progressGames_sound _ _ _) huncached

/-- C3 amended, at a concrete input: the `createGame` call for address 13 fails in the first
cycle, and the second cycle, which lists 13 again, calls `createGame` for 13 again. -/
theorem C3_retry_until_created_witness :
    Event.createGame 13 (.error (.leaf "connection refused")) ∈
      (cycles (Runtime.returning (fun agent w => (agent == 110, w)) (fun _ => "0x")) 1
        (newGameMonitor fetchBlock100 (sourceOf [[13], [13], [13]]) (createAfter 1)) 0).events ∧
    (cycles (Runtime.returning (fun agent w => (agent == 110, w)) (fun _ => "0x")) 1
      (newGameMonitor fetchBlock100 (sourceOf [[13], [13], [13]]) (createAfter 1))
        0).monitor.games.get 13 = none ∧
    ∃ res, Event.createGame 13 res ∈
      (progressGames (Runtime.returning (fun agent w => (agent == 110, w)) (fun _ => "0x"))
        (cycles (Runtime.returning (fun agent w => (agent == 110, w)) (fun _ => "0x")) 1
          (newGameMonitor fetchBlock100 (sourceOf [[13], [13], [13]]) (createAfter 1)) 0).monitor
        (cycles (Runtime.returning (fun agent w => (agent == 110, w)) (fun _ => "0x")) 1
          (newGameMonitor fetchBlock100 (sourceOf [[13], [13], [13]]) (createAfter 1)) 0).world
        ).events :=
  ⟨by decide,
    C3_retry_until_created (fun agent w => (agent == 110, w)) (fun _ => "0x")
      (newGameMonitor fetchBlock100 (sourceOf [[13], [13], [13]]) (createAfter 1)) 0 1 13
      (.leaf "connection refused") 100 1 2 [⟨13, 0⟩] (by decide)
      (by
        intro g
        rw [show (cycles (Runtime.returning (fun agent w => (agent == 110, w)) (fun _ => "0x")) 1
          (newGameMonitor fetchBlock100 (sourceOf [[13], [13], [13]]) (createAfter 1)) 0).events =
          [Event.fetchBlockNumber, Event.FetchAllGamesAtBlock 100,
            Event.createGame 13 (.error (.leaf "connection refused")),
            Event.logError "Error while progressing game" (some 13)
              (Errorf "failed to progress game 0x: " (.leaf "connection refused"))] from by decide]
        simp)
      (by decide) (by decide) ⟨⟨13, 0⟩, by decide, rfl⟩⟩

/-- C5, as stated, fails: addresses 10 and 11 are both cached and both listed, `ProgressGame`
panics on the agent of 10, and the agent of 11 is not progressed in that cycle: the panic
unwinds through `progressGames`, which has no `recover`. -/
theorem C5_panic_not_isolated :
    (progressGames panickingRuntime
        { newGameMonitor fetchBlock100 (sourceOf [[10, 11]]) createAlways with
          games := [(10, 110), (11, 111)] } 0).events =
      [Event.fetchBlockNumber, Event.FetchAllGamesAtBlock 100, Event.ProgressGame 110] ∧
    (progressGames panickingRuntime
        { newGameMonitor fetchBlock100 (sourceOf [[10, 11]]) createAlways with
          games := [(10, 110), (11, 111)] } 0).outcome = .panicked ∧
    Event.ProgressGame 111 ∉
      (progressGames panickingRuntime
        { newGameMonitor fetchBlock100 (sourceOf [[10, 11]]) createAlways with
          games := [(10, 110), (11, 111)] } 0).events := by
  decide

/-- C6 (a listing failure aborts the cycle): if `fetchBlockNumber` succeeds and
`FetchAllGamesAtBlock` returns the error `err`, then `progressGames` returns a non-nil error
that wraps `err` and whose message is "failed to load games: " followed by the message of
`err`; no `createGame` call and no `ProgressGame` call is made, and the map is what it was. -/
theorem C6_listing_failure_aborts {W : Type} (rt : Runtime W) (m : gameMonitor W)
    (w w1 w2 : W) (blockNum : Uint64) (err : GoError)
    (hbn : m.fetchBlockNumber w = (.ok blockNum, w1))
    (hsrc : m.source (SetUint64 blockNum) w1 = (.error err, w2)) :
    (∃ e, (progressGames rt m w).outcome = .returned (some e) ∧ e.Unwrap = some err ∧
      e.Error = "failed to load games: " ++ err.Error) ∧
    (∀ a res, Event.createGame a res ∉ (progressGames rt m w).events) ∧
    (∀ g, Event.ProgressGame g ∉ (progressGames rt m w).events) ∧
    (progressGames rt m w).monitor.games = m.games := by
  rw [progressGames_source_error rt m w w1 w2 blockNum err hbn hsrc]
  exact ⟨⟨_, rfl, rfl, rfl⟩, by simp, by simp, rfl⟩

/-- C6 at a concrete input: the game source is down while address 10 is cached. -/
theorem C6_listing_failure_aborts_witness :
    (progressGames steadyRuntime
        { newGameMonitor fetchBlock100 sourceDown createAlways with games := [(10, 110)] }
        0).events = [Event.fetchBlockNumber, Event.FetchAllGamesAtBlock 100] ∧
    ((∃ e, (progressGames steadyRuntime
          { newGameMonitor fetchBlock100 sourceDown createAlways with games := [(10, 110)] }
          0).outcome = .returned (some e) ∧ e.Unwrap = some (.leaf "rpc timeout") ∧
        e.Error = "failed to load games: " ++ (GoError.leaf "rpc timeout").Error) ∧
      (∀ a res, Event.createGame a res ∉ (progressGames steadyRuntime
          { newGameMonitor fetchBlock100 sourceDown createAlways with games := [(10, 110)] }
          0).events) ∧
      (∀ g, Event.ProgressGame g ∉ (progressGames steadyRuntime
          { newGameMonitor fetchBlock100 sourceDown createAlways with games := [(10, 110)] }
          0).events) ∧
      (progressGames steadyRuntime
          { newGameMonitor fetchBlock100 sourceDown createAlways with games := [(10, 110)] }
          0).monitor.games = [(10, 110)]) :=
  ⟨by decide,
    C6_listing_failure_aborts steadyRuntime
      { newGameMonitor fetchBlock100 sourceDown createAlways with games := [(10, 110)] }
      0 0 1 100 (.leaf "rpc timeout") (by decide) (by decide)⟩

/-- C7 (a block-number failure aborts the cycle before anything else): if `fetchBlockNumber`
returns the error `err`, then `progressGames` returns a non-nil error that wraps `err` and
whose message is "failed to load current block number: " followed by the message of `err`;
the game source is not queried, no `createGame` call and no `ProgressGame` call is made, and
the map is what it was. -/
theorem C7_block_number_failure_aborts {W : Type} (rt : Runtime W) (m : gameMonitor W)
    (w w1 : W) (err : GoError) (hbn : m.fetchBlockNumber w = (.error err, w1)) :
    (∃ e, (progressGames rt m w).outcome = .returned (some e) ∧ e.Unwrap = some err ∧
      e.Error = "failed to load current block number: " ++ err.Error) ∧
    (∀ blockNumber, Event.FetchAllGamesAtBlock blockNumber ∉ (progressGames rt m w).events) ∧
    (∀ a res, Event.createGame a res ∉ (progressGames rt m w).events) ∧
    (∀ g, Event.ProgressGame g ∉ (progressGames rt m w).events) ∧
    (progressGames rt m w).monitor.games = m.games := by
  rw [progressGames_blockNumber_error rt m w w1 err hbn]
  exact ⟨⟨_, rfl, rfl, rfl⟩, by simp, by simp, by simp, rfl⟩

/-- C7 at a concrete input: the block-number fetcher is down while address 10 is cached. -/
theorem C7_block_number_failure_aborts_witness :
    (progressGames steadyRuntime
        { newGameMonitor fetchBlockDown (sourceOf [[10]]) createAlways with
          games := [(10, 110)] } 0).events = [Event.fetchBlockNumber] ∧
    ((∃ e, (progressGames steadyRuntime
          { newGameMonitor fetchBlockDown (sourceOf [[10]]) createAlways with
            games := [(10, 110)] } 0).outcome = .returned (some e) ∧
        e.Unwrap = some (.leaf "no head block") ∧
        e.Error = "failed to load current block number: " ++
          (GoError.leaf "no head block").Error) ∧
      (∀ blockNumber, Event.FetchAllGamesAtBlock blockNumber ∉ (progressGames steadyRuntime
          { newGameMonitor fetchBlockDown (sourceOf [[10]]) createAlways with
            games := [(10, 110)] } 0).events) ∧
      (∀ a res, Event.createGame a res ∉ (progressGames steadyRuntime
          { newGameMonitor fetchBlockDown (sourceOf [[10]]) createAlways with
            games := [(10, 110)] } 0).events) ∧
      (∀ g, Event.ProgressGame g ∉ (progressGames steadyRuntime
          { newGameMonitor fetchBlockDown (sourceOf [[10]]) createAlways with
            games := [(10, 110)] } 0).events) ∧
      (progressGames steadyRuntime
          { newGameMonitor fetchBlockDown (sourceOf [[10]]) createAlways with
            games := [(10, 110)] } 0).monitor.games = [(10, 110)]) :=
  ⟨by decide,
    C7_block_number_failure_aborts steadyRuntime
      { newGameMonitor fetchBlockDown (sourceOf [[10]]) createAlways with games := [(10, 110)] }
      0 0 (.leaf "no head block") (by decide)⟩

/-- C10 (cache contents after a cycle): in a cycle whose discovery succeeds, the addresses
cached afterwards are the addresses cached before together with the listed addresses for which
a `createGame` call of the cycle succeeded; and every `createGame` call of the cycle is made by
the call of `progressGame` on a listed record with that address, at a moment (after the records
before it have been processed) when the address is not cached. -/
theorem C10_cache_after_cycle {W : Type} (rt : Runtime W) (m : gameMonitor W) (w w1 w2 : W)
    (blockNum : Uint64) (listing : List FaultDisputeGame)
    (hbn : m.fetchBlockNumber w = (.ok blockNum, w1))
    (hsrc : m.source (SetUint64 blockNum) w1 = (.ok listing, w2)) :
    (∀ a, a ∈ (progressGames rt m w).monitor.games.keys ↔
      a ∈ m.games.keys ∨ (a ∈ listing.map FaultDisputeGame.Proxy ∧
        ∃ g, Event.createGame a (.ok g) ∈ (progressGames rt m w).events)) ∧
    (∀ a res, Event.createGame a res ∈ (progressGames rt m w).events →
      ∃ pre game post, listing = pre ++ game :: post ∧ game.Proxy = a ∧
        (progressGamesLoop rt pre m w2).monitor.games.get a = none ∧
        Event.createGame a res ∈ (progressGame rt (progressGamesLoop rt pre m w2).monitor game
          (progressGamesLoop rt pre m w2).world).events) := by
  have hs := progressGames_sound rt m w
  have horigin : ∀ a res, Event.createGame a res ∈ (progressGames rt m w).events →
      ∃ pre game post, listing = pre ++ game :: post ∧ game.Proxy = a ∧
        (progressGamesLoop rt pre m w2).monitor.games.get a = none ∧
        Event.createGame a res ∈ (progressGame rt (progressGamesLoop rt pre m w2).monitor game
          (progressGamesLoop rt pre m w2).world).events := by
    intro a res hmem
    rw [progressGames_listed rt m w w1 w2 blockNum listing hbn hsrc] at hmem
    have hloop : Event.createGame a res ∈ (progressGamesLoop rt listing m w2).events := by
      simpa using hmem
    obtain ⟨pre, game, post, hsplit, hev⟩ :=
      progressGamesLoop_create_origin rt listing m w2 a res hloop
    exact ⟨pre, game, post, hsplit, (progressGame_create_address rt _ game _ a res hev).symm,
      (progressGame_sound rt _ game _).fresh a res hev, hev⟩
  refine ⟨?_, horigin⟩
  intro a
  rw [GameMap.mem_keys_iff, GameMap.mem_keys_iff]
  constructor
  · rintro ⟨g, hg⟩
    rcases hs.origin a g hg with h | h
    · exact Or.inl ⟨g, h⟩
    · obtain ⟨pre, game, post, hsplit, hA, _⟩ := horigin a _ h
      refine Or.inr ⟨?_, g, h⟩
      rw [hsplit]
      exact List.mem_map.mpr ⟨game, by simp, hA⟩
  · rintro (⟨g, hg⟩ | ⟨_, g, hg⟩)
    · exact ⟨g, hs.mono a g hg⟩
    · exact ⟨g, hs.stored a g hg⟩

/-- C10 at the scenario of the specification: from the empty cache the listing 0xA, 0xB leaves
the cache with the keys 0xA and 0xB; the following listing 0xA, 0xC calls `createGame` only for
0xC, calls `ProgressGame` on the agent created for 0xA in the first cycle and on the new agent
of 0xC, and leaves the cache with the keys 0xA, 0xB and 0xC. -/
theorem C10_cache_after_cycle_witness :
    ((progressGames steadyRuntime scenarioMonitor 0).events =
        [Event.fetchBlockNumber, Event.FetchAllGamesAtBlock 100,
          Event.createGame 10 (.ok 110), Event.ProgressGame 110,
          Event.createGame 11 (.ok 111), Event.ProgressGame 111] ∧
      (progressGames steadyRuntime scenarioMonitor 0).monitor.games = [(11, 111), (10, 110)] ∧
      (progressGames steadyRuntime (progressGames steadyRuntime scenarioMonitor 0).monitor
          (progressGames steadyRuntime scenarioMonitor 0).world).events =
        [Event.fetchBlockNumber, Event.FetchAllGamesAtBlock 100, Event.ProgressGame 110,
          Event.createGame 12 (.ok 112), Event.ProgressGame 112] ∧
      (progressGames steadyRuntime (progressGames steadyRuntime scenarioMonitor 0).monitor
          (progressGames steadyRuntime scenarioMonitor 0).world).monitor.games =
        [(12, 112), (11, 111), (10, 110)]) ∧
    ((∀ a, a ∈ (progressGames steadyRuntime (progressGames steadyRuntime scenarioMonitor 0).monitor
          (progressGames steadyRuntime scenarioMonitor 0).world).monitor.games.keys ↔
        a ∈ (progressGames steadyRuntime scenarioMonitor 0).monitor.games.keys ∨
          (a ∈ [(⟨10, 0⟩ : FaultDisputeGame), ⟨12, 0⟩].map FaultDisputeGame.Proxy ∧
          ∃ g, Event.createGame a (.ok g) ∈ (progressGames steadyRuntime
            (progressGames steadyRuntime scenarioMonitor 0).monitor
            (progressGames steadyRuntime scenarioMonitor 0).world).events)) ∧
      (∀ a res, Event.createGame a res ∈ (progressGames steadyRuntime
            (progressGames steadyRuntime scenarioMonitor 0).monitor
            (progressGames steadyRuntime scenarioMonitor 0).world).events →
        ∃ pre game post, [(⟨10, 0⟩ : FaultDisputeGame), ⟨12, 0⟩] = pre ++ game :: post ∧
          game.Proxy = a ∧
          (progressGamesLoop steadyRuntime pre
            (progressGames steadyRuntime scenarioMonitor 0).monitor 2).monitor.games.get a
              = none ∧
          Event.createGame a res ∈ (progressGame steadyRuntime
            (progressGamesLoop steadyRuntime pre
              (progressGames steadyRuntime scenarioMonitor 0).monitor 2).monitor game
            (progressGamesLoop steadyRuntime pre
              (progressGames steadyRuntime scenarioMonitor 0).monitor 2).world).events)) :=
  ⟨by decide,
    C10_cache_after_cycle steadyRuntime (progressGames steadyRuntime scenarioMonitor 0).monitor
      (progressGames steadyRuntime scenarioMonitor 0).world 1 2 100 [⟨10, 0⟩, ⟨12, 0⟩]
      (by decide) (by decide)⟩

/-! ## The boolean of `ProgressGame` -/

theorem callProgressGame_returning {W : Type} (ProgressGame : Agent → W → Bool × W)
    (addressString : Address → String) (m : gameMonitor W) (game : Agent) (w : W)
    (before : List Event) :
    callProgressGame (Runtime.returning ProgressGame addressString) m game w before =
      ⟨.returned none, m, (ProgressGame game w).2, before ++ [Event.ProgressGame game]⟩ := rfl

theorem progressGame_congr {W : Type} (pg1 pg2 : Agent → W → Bool × W)
    (addressString : Address → String) (h : ∀ g w, (pg1 g w).2 = (pg2 g w).2)
    (m : gameMonitor W) (gameData : FaultDisputeGame) (w : W) :
    progressGame (Runtime.returning pg1 addressString) m gameData w =
      progressGame (Runtime.returning pg2 addressString) m gameData w := by
  rcases progressGame_cases (Runtime.returning pg1 addressString) m gameData w with
    ⟨game, hg, heq⟩ | ⟨err, w1, hn, hc, heq⟩ | ⟨newGame, w1, hn, hc, heq⟩
  · rw [heq, progressGame_hit _ m gameData w game hg, callProgressGame_returning,
      callProgressGame_returning, h]
  · rw [heq, progressGame_fail _ m gameData w w1 err hn hc]
    rfl
  · rw [heq, progressGame_create _ m gameData w w1 newGame hn hc, callProgressGame_returning,
      callProgressGame_returning, h]

theorem progressGamesLoop_congr {W : Type} (pg1 pg2 : Agent → W → Bool × W)
    (addressString : Address → String) (h : ∀ g w, (pg1 g w).2 = (pg2 g w).2)
    (games : List FaultDisputeGame) :
    ∀ (m : gameMonitor W) (w : W),
      progressGamesLoop (Runtime.returning pg1 addressString) games m w =
        progressGamesLoop (Runtime.returning pg2 addressString) games m w := by
  induction games with
  | nil => intro m w; rfl
  | cons first rest ih =>
    intro m w
    rw [progressGamesLoop, progressGamesLoop, progressGame_congr pg1 pg2 addressString h]
    rcases progressGame (Runtime.returning pg2 addressString) m first w with ⟨o, m1, w1, ev⟩
    cases o with
    | panicked => rfl
    | returned e => cases e <;> simp only [ih]

theorem progressGames_congr {W : Type} (pg1 pg2 : Agent → W → Bool × W)
    (addressString : Address → String) (h : ∀ g w, (pg1 g w).2 = (pg2 g w).2)
    (m : gameMonitor W) (w : W) :
    progressGames (Runtime.returning pg1 addressString) m w =
      progressGames (Runtime.returning pg2 addressString) m w := by
  rcases progressGames_cases m w with ⟨err, w1, hbn⟩ | ⟨bn, w1, err, w2, hbn, hsrc⟩ |
    ⟨bn, w1, games, w2, hbn, hsrc⟩
  · rw [progressGames_blockNumber_error _ m w w1 err hbn,
      progressGames_blockNumber_error _ m w w1 err hbn]
  · rw [progressGames_source_error _ m w w1 w2 bn err hbn hsrc,
      progressGames_source_error _ m w w1 w2 bn err hbn hsrc]
  · rw [progressGames_listed _ m w w1 w2 bn games hbn hsrc,
      progressGames_listed _ m w w1 w2 bn games hbn hsrc,
      progressGamesLoop_congr pg1 pg2 addressString h]

/-- C12 (the boolean returned by `ProgressGame` is not interpreted): two runs of `progressGame`,
and two runs of `progressGames`, that start from the same monitor and the same world with
agents that differ only in the booleans their `ProgressGame` returns, are identical: same
returned error, same resulting map, same calls in the same order, same resulting world. In
particular an error returned by `progressGame` never comes from `ProgressGame`: it is returned
only when the address is not cached and `createGame` failed. -/
theorem C12_boolean_not_interpreted {W : Type} (pg1 pg2 : Agent → W → Bool × W)
    (addressString : Address → String) (m : gameMonitor W) (gameData : FaultDisputeGame)
    (w : W) (h : ∀ g v, (pg1 g v).2 = (pg2 g v).2) :
    progressGame (Runtime.returning pg1 addressString) m gameData w =
      progressGame (Runtime.returning pg2 addressString) m gameData w ∧
    progressGames (Runtime.returning pg1 addressString) m w =
      progressGames (Runtime.returning pg2 addressString) m w ∧
    (∀ e, (progressGame (Runtime.returning pg1 addressString) m gameData w).outcome
        = .returned (some e) →
      m.games.get gameData.Proxy = none ∧
        ∃ err w1, m.createGame gameData.Proxy w = (.error err, w1)) := by
  refine ⟨progressGame_congr pg1 pg2 addressString h m gameData w,
    progressGames_congr pg1 pg2 addressString h m w, ?_⟩
  intro e he
  rcases progressGame_cases (Runtime.returning pg1 addressString) m gameData w with
    ⟨game, hg, heq⟩ | ⟨err, w1, hn, hc, heq⟩ | ⟨newGame, w1, hn, hc, heq⟩
  · rw [heq, callProgressGame_returning] at he; simp at he
  · exact ⟨hn, err, w1, hc⟩
  · rw [heq, callProgressGame_returning] at he; simp at he

/-- C12 at a concrete input: agents that report progress on agent 110 only, against agents
that never report progress, on the first cycle of the two-cycle scenario. -/
theorem C12_boolean_not_interpreted_witness :
    (progressGames (Runtime.returning (fun agent v => (agent == 110, v)) (fun _ => "0x"))
        scenarioMonitor 0).outcome = .returned none ∧
    (progressGames (Runtime.returning (fun _ v => (false, v)) (fun _ => "0x"))
        scenarioMonitor 0).outcome = .returned none ∧
    (progressGame (Runtime.returning (fun agent v => (agent == 110, v)) (fun _ => "0x"))
        scenarioMonitor ⟨10, 0⟩ 0 =
      progressGame (Runtime.returning (fun _ v => (false, v)) (fun _ => "0x"))
        scenarioMonitor ⟨10, 0⟩ 0 ∧
    progressGames (Runtime.returning (fun agent v => (agent == 110, v)) (fun _ => "0x"))
        scenarioMonitor 0 =
      progressGames (Runtime.returning (fun _ v => (false, v)) (fun _ => "0x"))
        scenarioMonitor 0 ∧
    (∀ e, (progressGame (Runtime.returning (fun agent v => (agent == 110, v)) (fun _ => "0x"))
        scenarioMonitor ⟨10, 0⟩ 0).outcome = .returned (some e) →
      scenarioMonitor.games.get 10 = none ∧
        ∃ err w1, scenarioMonitor.createGame 10 0 = (.error err, w1))) :=
  ⟨by decide, by decide,
    C12_boolean_not_interpreted (fun agent v => (agent == 110, v)) (fun _ v => (false, v))
      (fun _ => "0x") scenarioMonitor ⟨10, 0⟩ 0 (fun _ _ => rfl)⟩

/-! ## Store before use -/

/-- C16 (store before use): if the address of the record is not cached and `createGame`
returns the agent `newGame` for it, then `progressGame` makes exactly two calls, `createGame`
and then `ProgressGame` on `newGame`, in the world `createGame` left; the map after the call
binds the address to `newGame` and binds every other address as before, and it does so
whether `ProgressGame` returns or panics, the agent having been stored before the call; when
`ProgressGame` returns, `progressGame` returns `nil`. -/
theorem C16_store_before_use {W : Type} (rt : Runtime W) (m : gameMonitor W)
    (gameData : FaultDisputeGame) (w w1 : W) (newGame : Agent)
    (hn : m.games.get gameData.Proxy = none)
    (hc : m.createGame gameData.Proxy w = (.ok newGame, w1)) :
    (progressGame rt m gameData w).events =
      [Event.createGame gameData.Proxy (.ok newGame), Event.ProgressGame newGame] ∧
    (progressGame rt m gameData w).world = (rt.ProgressGame newGame w1).2 ∧
    (progressGame rt m gameData w).monitor.games.get gameData.Proxy = some newGame ∧
    (∀ a, a ≠ gameData.Proxy →
      (progressGame rt m gameData w).monitor.games.get a = m.games.get a) ∧
    (progressGame rt m gameData w).outcome =
      (if (rt.ProgressGame newGame w1).1 = none then .panicked else .returned none) := by
  rw [progressGame_create rt m gameData w w1 newGame hn hc, callProgressGame_events,
    callProgressGame_world, callProgressGame_monitor, callProgressGame_outcome]
  exact ⟨rfl, rfl, GameMap.get_set_same _ _ _,
    fun a ha => GameMap.get_set_other _ _ _ _ ha, rfl⟩

/-- C16 at a concrete input: address 12 is created while 10 and 11 are cached. -/
theorem C16_store_before_use_witness :
    (progressGame steadyRuntime
        { scenarioMonitor with games := [(11, 111), (10, 110)] } ⟨12, 0⟩ 2).monitor.games =
      [(12, 112), (11, 111), (10, 110)] ∧
    (progressGame steadyRuntime
        { scenarioMonitor with games := [(11, 111), (10, 110)] } ⟨12, 0⟩ 2).outcome =
      .returned none ∧
    ((progressGame steadyRuntime
        { scenarioMonitor with games := [(11, 111), (10, 110)] } ⟨12, 0⟩ 2).events =
      [Event.createGame 12 (.ok 112), Event.ProgressGame 112] ∧
    (progressGame steadyRuntime
        { scenarioMonitor with games := [(11, 111), (10, 110)] } ⟨12, 0⟩ 2).world =
      (steadyRuntime.ProgressGame 112 2).2 ∧
    (progressGame steadyRuntime
        { scenarioMonitor with games := [(11, 111), (10, 110)] } ⟨12, 0⟩ 2).monitor.games.get 12
      = some 112 ∧
    (∀ a, a ≠ 12 →
      (progressGame steadyRuntime
        { scenarioMonitor with games := [(11, 111), (10, 110)] } ⟨12, 0⟩ 2).monitor.games.get a
      = GameMap.get [(11, 111), (10, 110)] a) ∧
    (progressGame steadyRuntime
        { scenarioMonitor with games := [(11, 111), (10, 110)] } ⟨12, 0⟩ 2).outcome =
      (if (steadyRuntime.ProgressGame 112 2).1 = none then .panicked else .returned none)) :=
  ⟨by decide, by decide,
    C16_store_before_use steadyRuntime { scenarioMonitor with games := [(11, 111), (10, 110)] }
      ⟨12, 0⟩ 2 2 112 (by decide) (by decide)⟩

/-! ## The block number handed to the game source -/

theorem progressGame_no_query {W : Type} (rt : Runtime W) (m : gameMonitor W)
    (gameData : FaultDisputeGame) (w : W) :
    (progressGame rt m gameData w).events.filterMap Event.queriedBlock = [] := by
  rcases progressGame_cases rt m gameData w with ⟨game, _, heq⟩ | ⟨err, w1, _, _, heq⟩ |
    ⟨newGame, w1, _, _, heq⟩
  · rw [heq, callProgressGame_events]; rfl
  · rw [heq]; rfl
  · rw [heq, callProgressGame_events]; rfl

theorem progressGamesLoop_no_query {W : Type} (rt : Runtime W)
    (games : List FaultDisputeGame) :
    ∀ (m : gameMonitor W) (w : W),
      (progressGamesLoop rt games m w).events.filterMap Event.queriedBlock = [] := by
  induction games with
  | nil => intro m w; rfl
  | cons first rest ih =>
    intro m w
    cases ho : (progressGame rt m first w).outcome with
    | panicked =>
      rw [progressGamesLoop_panicked rt first rest m w ho]
      exact progressGame_no_query rt m first w
    | returned e =>
      rw [progressGamesLoop_returned rt first rest m w e ho]
      simp only [List.filterMap_append, progressGame_no_query, ih, List.nil_append]
      cases e <;> rfl

/-- C17 (games are listed as of the fetched block): if `fetchBlockNumber` returns the `uint64`
value `n`, the cycle queries the game source exactly once, and the block number of that query
is the integer whose value is `n`: it is not negative and nothing of `n` is lost, whatever `n`
below `2 ^ 64`. -/
theorem C17_block_number_passed {W : Type} (rt : Runtime W) (m : gameMonitor W) (w w1 : W)
    (n : Uint64) (hbn : m.fetchBlockNumber w = (.ok n, w1)) :
    (progressGames rt m w).events.filterMap Event.queriedBlock = [SetUint64 n] ∧
    0 ≤ SetUint64 n ∧ (SetUint64 n).toNat = n.val ∧ SetUint64 n = (n.val : Int) ∧
    SetUint64 n < 2 ^ 64 := by
  refine ⟨?_, Int.ofNat_nonneg _, Int.toNat_ofNat _, rfl, ?_⟩
  · rcases hsrc : m.source (SetUint64 n) w1 with ⟨res, w2⟩
    cases res with
    | error err =>
      rw [progressGames_source_error rt m w w1 w2 n err hbn hsrc]; rfl
    | ok games =>
      rw [progressGames_listed rt m w w1 w2 n games hbn hsrc]
      simp [List.filterMap_cons, Event.queriedBlock, progressGamesLoop_no_query]
  · have hlt := n.isLt
    unfold SetUint64
    simp only [Int.ofNat_eq_coe]
    omega

/-- C17 at the largest `uint64`: the game source is queried once, at block `2 ^ 64 - 1`. -/
theorem C17_block_number_passed_witness :
    (progressGames steadyRuntime
        (newGameMonitor fetchBlockMax (sourceOf [[10]]) createAlways) 0).events =
      [Event.fetchBlockNumber, Event.FetchAllGamesAtBlock 18446744073709551615,
        Event.createGame 10 (.ok 110), Event.ProgressGame 110] ∧
    ((progressGames steadyRuntime
        (newGameMonitor fetchBlockMax (sourceOf [[10]]) createAlways) 0).events.filterMap
          Event.queriedBlock = [SetUint64 ⟨2 ^ 64 - 1, by decide⟩] ∧
      0 ≤ SetUint64 ⟨2 ^ 64 - 1, by decide⟩ ∧
      (SetUint64 ⟨2 ^ 64 - 1, by decide⟩).toNat = (⟨2 ^ 64 - 1, by decide⟩ : Uint64).val ∧
      SetUint64 ⟨2 ^ 64 - 1, by decide⟩ = (((⟨2 ^ 64 - 1, by decide⟩ : Uint64).val : Nat) : Int) ∧
      SetUint64 ⟨2 ^ 64 - 1, by decide⟩ < 2 ^ 64) :=
  ⟨by decide,
    C17_block_number_passed steadyRuntime
      (newGameMonitor fetchBlockMax (sourceOf [[10]]) createAlways) 0 0 ⟨2 ^ 64 - 1, by decide⟩
      (by decide)⟩

/-! ## The order of progression -/

theorem progressGame_progressed {W : Type} (rt : Runtime W) (m : gameMonitor W)
    (gameData : FaultDisputeGame) (w : W) :
    (progressGame rt m gameData w).events.filterMap Event.progressed =
      (agentOf m gameData w).toList := by
  rcases progressGame_cases rt m gameData w with ⟨game, hg, heq⟩ | ⟨err, w1, hn, hc, heq⟩ |
    ⟨newGame, w1, hn, hc, heq⟩
  · rw [heq, callProgressGame_events]; simp [agentOf, hg, Event.progressed]
  · rw [heq]; simp [agentOf, hn, hc, Event.progressed]
  · rw [heq, callProgressGame_events]; simp [agentOf, hn, hc, Event.progressed]

theorem agentOf_eq_get {W : Type} (rt : Runtime W) (m : gameMonitor W)
    (gameData : FaultDisputeGame) (w : W) :
    agentOf m gameData w = (progressGame rt m gameData w).monitor.games.get gameData.Proxy := by
  rcases progressGame_cases rt m gameData w with ⟨game, hg, heq⟩ | ⟨err, w1, hn, hc, heq⟩ |
    ⟨newGame, w1, hn, hc, heq⟩
  · rw [heq, callProgressGame_monitor]; simp [agentOf, hg]
  · rw [heq]; simp [agentOf, hn, hc]
  · rw [heq, callProgressGame_monitor]
    simp only [agentOf, hn, hc]
    exact (GameMap.get_set_same _ _ _).symm

theorem loggedFor_progressed (game : FaultDisputeGame) (e : Option GoError) :
    (loggedFor game e).filterMap Event.progressed = [] := by
  cases e <;> rfl

/-- A loop that is not cut short by a panic calls `ProgressGame` on the agents of the listed
records that have one, in listing order. -/
theorem progressGamesLoop_progressed {W : Type} (rt : Runtime W)
    (games : List FaultDisputeGame) :
    ∀ (m : gameMonitor W) (w : W), (progressGamesLoop rt games m w).outcome ≠ .panicked →
      (progressGamesLoop rt games m w).events.filterMap Event.progressed =
        listedAgents rt games m w := by
  induction games with
  | nil => intro m w _; rfl
  | cons first rest ih =>
    intro m w hout
    cases ho : (progressGame rt m first w).outcome with
    | panicked =>
      rw [progressGamesLoop_panicked rt first rest m w ho] at hout
      exact absurd rfl hout
    | returned e =>
      rw [progressGamesLoop_returned rt first rest m w e ho] at hout ⊢
      simp only [List.filterMap_append, progressGame_progressed, loggedFor_progressed,
        List.nil_append, listedAgents]
      rw [ih _ _ hout]

/-- The loop leaves alone the binding of an address that is not listed. -/
theorem progressGamesLoop_get_unlisted {W : Type} (rt : Runtime W)
    (games : List FaultDisputeGame) (m : gameMonitor W) (w : W) (a : Address)
    (h : a ∉ games.map FaultDisputeGame.Proxy) :
    (progressGamesLoop rt games m w).monitor.games.get a = m.games.get a := by
  have hs := progressGamesLoop_sound rt games m w
  cases hfin : (progressGamesLoop rt games m w).monitor.games.get a with
  | none =>
    cases hm : m.games.get a with
    | none => rfl
    | some g => rw [hs.mono a g hm] at hfin; cases hfin
  | some g =>
    rcases hs.origin a g hfin with h1 | h1
    · exact h1.symm
    · obtain ⟨pre, game, post, hsplit, hev⟩ :=
        progressGamesLoop_create_origin rt games m w a _ h1
      have ha := progressGame_create_address rt _ game _ a _ hev
      exact absurd (List.mem_map.mpr ⟨game, by rw [hsplit]; simp, ha.symm⟩) h

/-- When no address is listed twice, the agent a record has when it is looked at is the agent
its address is bound to when the loop is over. -/
theorem listedAgents_of_nodup {W : Type} (rt : Runtime W) (games : List FaultDisputeGame) :
    ∀ (m : gameMonitor W) (w : W), (progressGamesLoop rt games m w).outcome ≠ .panicked →
      (games.map FaultDisputeGame.Proxy).Nodup →
      listedAgents rt games m w =
        games.filterMap (fun game =>
          (progressGamesLoop rt games m w).monitor.games.get game.Proxy) := by
  induction games with
  | nil => intro m w _ _; rfl
  | cons first rest ih =>
    intro m w hout hnodup
    rw [List.map_cons, List.nodup_cons] at hnodup
    cases ho : (progressGame rt m first w).outcome with
    | panicked =>
      rw [progressGamesLoop_panicked rt first rest m w ho] at hout
      exact absurd rfl hout
    | returned e =>
      rw [progressGamesLoop_returned rt first rest m w e ho] at hout ⊢
      have hfirst := progressGamesLoop_get_unlisted rt rest (progressGame rt m first w).monitor
        (progressGame rt m first w).world first.Proxy hnodup.1
      simp only [listedAgents, List.filterMap_cons]
      rw [ih _ _ hout hnodup.2, hfirst, ← agentOf_eq_get rt m first w]
      cases agentOf m first w <;> rfl

/-- Every agent of `listedAgents` is the agent a listed address is bound to when the loop is
over. -/
theorem listedAgents_bound {W : Type} (rt : Runtime W) (games : List FaultDisputeGame) :
    ∀ (m : gameMonitor W) (w : W), (progressGamesLoop rt games m w).outcome ≠ .panicked →
      ∀ g ∈ listedAgents rt games m w, ∃ game ∈ games,
        (progressGamesLoop rt games m w).monitor.games.get game.Proxy = some g := by
  induction games with
  | nil => intro m w _ g hg; cases hg
  | cons first rest ih =>
    intro m w hout g hg
    cases ho : (progressGame rt m first w).outcome with
    | panicked =>
      rw [progressGamesLoop_panicked rt first rest m w ho] at hout
      exact absurd rfl hout
    | returned e =>
      rw [progressGamesLoop_returned rt first rest m w e ho] at hout ⊢
      simp only [listedAgents, List.mem_append] at hg
      rcases hg with h1 | h2
      · refine ⟨first, by simp, ?_⟩
        rw [agentOf_eq_get rt m first w] at h1
        have h1' : (progressGame rt m first w).monitor.games.get first.Proxy = some g := by
          simpa using h1
        exact (progressGamesLoop_sound rt rest _ _).mono _ _ h1'
      · obtain ⟨game, hmem, hget⟩ := ih _ _ hout g h2
        exact ⟨game, List.mem_cons_of_mem _ hmem, hget⟩

theorem count_progressGame_eq (ev : List Event) (g : Agent) :
    ev.count (Event.ProgressGame g) = (ev.filterMap Event.progressed).count g := by
  induction ev with
  | nil => rfl
  | cons e rest ih =>
    cases e with
    | ProgressGame a =>
      by_cases h : a = g
      · subst h; simp [Event.progressed, ih]
      · have h2 : Event.ProgressGame a ≠ Event.ProgressGame g := by
          intro hc; exact h (Event.ProgressGame.inj hc)
        simp [Event.progressed, ih, List.count_cons, h, h2]
    | _ => simp [Event.progressed, ih, List.count_cons]

theorem progressGames_progressed {W : Type} (rt : Runtime W) (m : gameMonitor W)
    (w w1 w2 : W) (blockNum : Uint64) (listing : List FaultDisputeGame)
    (hbn : m.fetchBlockNumber w = (.ok blockNum, w1))
    (hsrc : m.source (SetUint64 blockNum) w1 = (.ok listing, w2))
    (hout : (progressGamesLoop rt listing m w2).outcome ≠ .panicked) :
    (progressGames rt m w).events.filterMap Event.progressed = listedAgents rt listing m w2 := by
  rw [progressGames_listed rt m w w1 w2 blockNum listing hbn hsrc]
  simp only [List.filterMap_cons, Event.progressed]
  exact progressGamesLoop_progressed rt listing m w2 hout

theorem progressGamesLoop_returning_ne {W : Type} (ProgressGame : Agent → W → Bool × W)
    (addressString : Address → String) (games : List FaultDisputeGame) (m : gameMonitor W)
    (w : W) :
    (progressGamesLoop (Runtime.returning ProgressGame addressString) games m w).outcome
      ≠ .panicked := by
  rw [progressGamesLoop_returning]; simp

/-- C11, as stated, fails: address 10 is cached and listed twice in one listing, and
`ProgressGame` is called twice on its agent in that cycle. -/
theorem C11_twice_when_listed_twice :
    (progressGames steadyRuntime
        { newGameMonitor fetchBlock100 (sourceOf [[10, 10]]) createAlways with
          games := [(10, 110)] } 0).events =
      [Event.fetchBlockNumber, Event.FetchAllGamesAtBlock 100, Event.ProgressGame 110,
        Event.ProgressGame 110] ∧
    (progressGames steadyRuntime
        { newGameMonitor fetchBlock100 (sourceOf [[10, 10]]) createAlways with
          games := [(10, 110)] } 0).events.count (Event.ProgressGame 110) = 2 := by
  decide

/-- C11 (each agent is driven forward once per cycle), amended: in a cycle whose discovery
succeeds (the agents return from `ProgressGame`) and whose listing lists no address twice, the
`ProgressGame` calls of the cycle are one call for each listed record whose address is cached
after the cycle, on the agent it is bound to; so `ProgressGame` is called exactly once on the
agent of a listed game, provided no other listed game has the same agent. -/
theorem C11_once_per_listed_game {W : Type} (ProgressGame : Agent → W → Bool × W)
    (addressString : Address → String) (m : gameMonitor W) (w w1 w2 : W) (blockNum : Uint64)
    (listing : List FaultDisputeGame)
    (hbn : m.fetchBlockNumber w = (.ok blockNum, w1))
    (hsrc : m.source (SetUint64 blockNum) w1 = (.ok listing, w2))
    (hnodup : (listing.map FaultDisputeGame.Proxy).Nodup) :
    (progressGames (Runtime.returning ProgressGame addressString) m w).events.filterMap
        Event.progressed =
      listing.filterMap (fun game =>
        (progressGames (Runtime.returning ProgressGame addressString) m w).monitor.games.get
          game.Proxy) ∧
    ∀ game ∈ listing, ∀ g,
      (progressGames (Runtime.returning ProgressGame addressString) m w).monitor.games.get
          game.Proxy = some g →
      (∀ other ∈ listing,
        (progressGames (Runtime.returning ProgressGame addressString) m w).monitor.games.get
          other.Proxy = some g → other = game) →
      (progressGames (Runtime.returning ProgressGame addressString) m w).events.count
        (Event.ProgressGame g) = 1 := by
  have hout := progressGamesLoop_returning_ne ProgressGame addressString listing m w2
  have hseq := progressGames_progressed (Runtime.returning ProgressGame addressString) m w w1 w2
    blockNum listing hbn hsrc hout
  rw [listedAgents_of_nodup _ listing m w2 hout hnodup] at hseq
  have hmon : (progressGames (Runtime.returning ProgressGame addressString) m w).monitor =
      (progressGamesLoop (Runtime.returning ProgressGame addressString) listing m w2).monitor := by
    rw [progressGames_listed _ m w w1 w2 blockNum listing hbn hsrc]
  rw [hmon]
  refine ⟨hseq, ?_⟩
  intro game hmem g hg huniq
  rw [count_progressGame_eq, hseq, List.count_filterMap]
  have hcongr : ∀ x ∈ listing,
      ((fun a : FaultDisputeGame =>
        (progressGamesLoop (Runtime.returning ProgressGame addressString) listing m
          w2).monitor.games.get a.Proxy == some g) x = true) ↔
      ((fun a : FaultDisputeGame => a == game) x = true) := by
    intro x hx
    simp only [beq_iff_eq]
    constructor
    · intro hxg; exact huniq x hx hxg
    · intro hxe; rw [hxe]; exact hg
  rw [List.countP_congr hcongr, ← List.count_eq_countP]
  exact List.count_eq_one_of_mem (List.Nodup.of_map _ hnodup) hmem

/-- C11 amended, at a concrete input: addresses 10 and 11 are cached, the listing is 10, 12,
and `ProgressGame` is called once on the agent of 10 and once on the new agent of 12. -/
theorem C11_once_per_listed_game_witness :
    (progressGames (Runtime.returning (fun agent v => (agent == 110, v)) (fun _ => "0x"))
        { newGameMonitor fetchBlock100 (sourceOf [[10, 12]]) createAlways with
          games := [(11, 111), (10, 110)] } 0).events =
      [Event.fetchBlockNumber, Event.FetchAllGamesAtBlock 100, Event.ProgressGame 110,
        Event.createGame 12 (.ok 112), Event.ProgressGame 112] ∧
    ((progressGames (Runtime.returning (fun agent v => (agent == 110, v)) (fun _ => "0x"))
        { newGameMonitor fetchBlock100 (sourceOf [[10, 12]]) createAlways with
          games := [(11, 111), (10, 110)] } 0).events.filterMap Event.progressed =
      [(⟨10, 0⟩ : FaultDisputeGame), ⟨12, 0⟩].filterMap (fun game =>
        (progressGames (Runtime.returning (fun agent v => (agent == 110, v)) (fun _ => "0x"))
          { newGameMonitor fetchBlock100 (sourceOf [[10, 12]]) createAlways with
            games := [(11, 111), (10, 110)] } 0).monitor.games.get game.Proxy) ∧
    ∀ game ∈ [(⟨10, 0⟩ : FaultDisputeGame), ⟨12, 0⟩], ∀ g,
      (progressGames (Runtime.returning (fun agent v => (agent == 110, v)) (fun _ => "0x"))
        { newGameMonitor fetchBlock100 (sourceOf [[10, 12]]) createAlways with
          games := [(11, 111), (10, 110)] } 0).monitor.games.get game.Proxy = some g →
      (∀ other ∈ [(⟨10, 0⟩ : FaultDisputeGame), ⟨12, 0⟩],
        (progressGames (Runtime.returning (fun agent v => (agent == 110, v)) (fun _ => "0x"))
          { newGameMonitor fetchBlock100 (sourceOf [[10, 12]]) createAlways with
            games := [(11, 111), (10, 110)] } 0).monitor.games.get other.Proxy = some g →
        other = game) →
      (progressGames (Runtime.returning (fun agent v => (agent == 110, v)) (fun _ => "0x"))
        { newGameMonitor fetchBlock100 (sourceOf [[10, 12]]) createAlways with
          games := [(11, 111), (10, 110)] } 0).events.count (Event.ProgressGame g) = 1) :=
  ⟨by decide,
    C11_once_per_listed_game (fun agent v => (agent == 110, v)) (fun _ => "0x")
      { newGameMonitor fetchBlock100 (sourceOf [[10, 12]]) createAlways with
        games := [(11, 111), (10, 110)] } 0 0 1 100 [⟨10, 0⟩, ⟨12, 0⟩] (by decide) (by decide)
      (by decide)⟩

/-! ## Counting the `createGame` calls -/

/-- One call of `progressGame` calls `createGame` at most once, and only for the address of
its record when that address is not cached. -/
theorem progressGame_createCalls {W : Type} (rt : Runtime W) (m : gameMonitor W)
    (gameData : FaultDisputeGame) (w : W) (A : Address) :
    (progressGame rt m gameData w).events.countP (Event.isCreateCall A) =
      if gameData.Proxy = A ∧ m.games.get A = none then 1 else 0 := by
  rcases progressGame_cases rt m gameData w with ⟨game, hg, heq⟩ | ⟨err, w1, hn, hc, heq⟩ |
    ⟨newGame, w1, hn, hc, heq⟩
  · rw [heq, callProgressGame_events]
    have hcond : ¬ (gameData.Proxy = A ∧ m.games.get A = none) := by
      rintro ⟨h1, h2⟩; rw [← h1, hg] at h2; cases h2
    simp [Event.isCreateCall, hcond]
  · rw [heq]
    by_cases hA : gameData.Proxy = A
    · subst hA; simp [Event.isCreateCall, hn]
    · simp [Event.isCreateCall, hA]
  · rw [heq, callProgressGame_events]
    by_cases hA : gameData.Proxy = A
    · subst hA; simp [Event.isCreateCall, hn]
    · simp [Event.isCreateCall, hA]

theorem loggedFor_createCalls (game : FaultDisputeGame) (e : Option GoError) (A : Address) :
    (loggedFor game e).countP (Event.isCreateCall A) = 0 := by
  cases e <;> rfl

/-- No `createGame` call is made for an address that is cached when the loop begins. -/
theorem progressGamesLoop_createCalls_cached {W : Type} (rt : Runtime W)
    (games : List FaultDisputeGame) (m : gameMonitor W) (w : W) (A : Address)
    (h : m.games.get A ≠ none) :
    (progressGamesLoop rt games m w).events.countP (Event.isCreateCall A) = 0 := by
  rw [List.countP_eq_zero]
  intro e he hcall
  cases e with
  | createGame a res =>
    simp only [Event.isCreateCall, beq_iff_eq] at hcall
    subst hcall
    exact h ((progressGamesLoop_sound rt games m w).fresh a res he)
  | _ => simp [Event.isCreateCall] at hcall

/-- When the address is still not cached after the loop, every listed record with that
address had its own failed `createGame` call. -/
theorem progressGamesLoop_createCalls_uncached {W : Type} (rt : Runtime W)
    (games : List FaultDisputeGame) (A : Address) :
    ∀ (m : gameMonitor W) (w : W), (progressGamesLoop rt games m w).outcome ≠ .panicked →
      (progressGamesLoop rt games m w).monitor.games.get A = none →
      (progressGamesLoop rt games m w).events.countP (Event.isCreateCall A) =
        games.countP (fun game => game.Proxy == A) := by
  induction games with
  | nil => intro m w _ _; rfl
  | cons first rest ih =>
    intro m w hout hfin
    cases ho : (progressGame rt m first w).outcome with
    | panicked =>
      rw [progressGamesLoop_panicked rt first rest m w ho] at hout
      exact absurd rfl hout
    | returned e =>
      rw [progressGamesLoop_returned rt first rest m w e ho] at hout hfin ⊢
      have hmid : (progressGame rt m first w).monitor.games.get A = none := by
        cases hm : (progressGame rt m first w).monitor.games.get A with
        | none => rfl
        | some g =>
          rw [(progressGamesLoop_sound rt rest _ _).mono A g hm] at hfin; cases hfin
      have hstart : m.games.get A = none := by
        cases hm : m.games.get A with
        | none => rfl
        | some g => rw [(progressGame_sound rt m first w).mono A g hm] at hmid; cases hmid
      simp only [List.countP_append, progressGame_createCalls, loggedFor_createCalls,
        ih _ _ hout hfin, List.countP_cons, hstart, and_true, beq_iff_eq]
      omega

/-- The loop over a listing in two parts. -/
theorem progressGamesLoop_append {W : Type} (rt : Runtime W) (l1 l2 : List FaultDisputeGame) :
    ∀ (m : gameMonitor W) (w : W), (progressGamesLoop rt l1 m w).outcome ≠ .panicked →
      progressGamesLoop rt (l1 ++ l2) m w =
        ⟨(progressGamesLoop rt l2 (progressGamesLoop rt l1 m w).monitor
            (progressGamesLoop rt l1 m w).world).outcome,
          (progressGamesLoop rt l2 (progressGamesLoop rt l1 m w).monitor
            (progressGamesLoop rt l1 m w).world).monitor,
          (progressGamesLoop rt l2 (progressGamesLoop rt l1 m w).monitor
            (progressGamesLoop rt l1 m w).world).world,
          (progressGamesLoop rt l1 m w).events ++
            (progressGamesLoop rt l2 (progressGamesLoop rt l1 m w).monitor
              (progressGamesLoop rt l1 m w).world).events⟩ := by
  induction l1 with
  | nil => intro m w _; rfl
  | cons first rest ih =>
    intro m w hout
    cases ho : (progressGame rt m first w).outcome with
    | panicked =>
      rw [progressGamesLoop_panicked rt first rest m w ho] at hout
      exact absurd rfl hout
    | returned e =>
      rw [progressGamesLoop_returned rt first rest m w e ho] at hout
      rw [List.cons_append, progressGamesLoop_returned rt first (rest ++ l2) m w e ho,
        progressGamesLoop_returned rt first rest m w e ho, ih _ _ hout]
      simp only [List.append_assoc]

/-- The `createGame` calls of a cycle whose discovery succeeds are those of its loop. -/
theorem progressGames_createCalls {W : Type} (rt : Runtime W) (m : gameMonitor W)
    (w w1 w2 : W) (blockNum : Uint64) (listing : List FaultDisputeGame)
    (hbn : m.fetchBlockNumber w = (.ok blockNum, w1))
    (hsrc : m.source (SetUint64 blockNum) w1 = (.ok listing, w2)) (A : Address) :
    (progressGames rt m w).events.countP (Event.isCreateCall A) =
      (progressGamesLoop rt listing m w2).events.countP (Event.isCreateCall A) := by
  rw [progressGames_listed rt m w w1 w2 blockNum listing hbn hsrc]
  simp [List.countP_cons, Event.isCreateCall]

/-- The record whose `createGame` call succeeds makes that call and then progresses the new
agent. -/
theorem progressGame_events_of_created {W : Type} (rt : Runtime W) (m : gameMonitor W)
    (gameData : FaultDisputeGame) (w : W) (A : Address) (g : Agent)
    (h : Event.createGame A (.ok g) ∈ (progressGame rt m gameData w).events) :
    (progressGame rt m gameData w).events =
      [Event.createGame A (.ok g), Event.ProgressGame g] := by
  rcases progressGame_cases rt m gameData w with ⟨game, _, heq⟩ | ⟨err, w1, _, _, heq⟩ |
    ⟨newGame, w1, _, _, heq⟩
  · rw [heq, callProgressGame_events] at h; simp at h
  · rw [heq] at h; simp at h
  · rw [heq, callProgressGame_events] at h ⊢
    simp at h
    rw [h.1, h.2]; rfl

/-- Once a record has created the agent of `A`, the loop over that record and the records
after it makes one `createGame` call for `A`. -/
theorem progressGamesLoop_createCalls_from_created {W : Type} (rt : Runtime W)
    (game : FaultDisputeGame) (post : List FaultDisputeGame) (m : gameMonitor W) (w : W)
    (A : Address) (g : Agent) (hA : game.Proxy = A)
    (h : Event.createGame A (.ok g) ∈ (progressGame rt m game w).events) :
    (progressGamesLoop rt (game :: post) m w).events.countP (Event.isCreateCall A) = 1 := by
  have hs := progressGame_sound rt m game w
  have hstart : m.games.get A = none := hs.fresh A _ h
  have hstored : (progressGame rt m game w).monitor.games.get A ≠ none := by
    rw [hs.stored A g h]; simp
  have hone : (progressGame rt m game w).events.countP (Event.isCreateCall A) = 1 := by
    rw [progressGame_createCalls]; simp [hA, hstart]
  cases ho : (progressGame rt m game w).outcome with
  | panicked => rw [progressGamesLoop_panicked rt game post m w ho]; exact hone
  | returned e =>
    rw [progressGamesLoop_returned rt game post m w e ho]
    simp only [List.countP_append, hone, loggedFor_createCalls,
      progressGamesLoop_createCalls_cached rt post _ _ A hstored]

/-! ## The loop of `MonitorGames` -/

/-- The `ctx.Done()` case proceeds only if the channel is closed by the time the timer fires. -/
theorem selectWait_done {W : Type} (ctx : Context W) (w : W) (d : Nat)
    (h : selectWait ctx w = (.done, d)) : ctx.doneAfter w = some d ∧ d ≤ 300 := by
  unfold selectWait at h
  cases hd : ctx.doneAfter w with
  | none => rw [hd] at h; simp at h
  | some d0 =>
    rw [hd] at h
    simp only at h
    by_cases h1 : d0 < 300
    · rw [if_pos h1] at h
      simp only [Prod.mk.injEq, true_and] at h
      subst h; exact ⟨rfl, Nat.le_of_lt h1⟩
    · rw [if_neg h1] at h
      by_cases h2 : d0 = 300
      · rw [if_pos h2] at h
        simp only [Prod.mk.injEq] at h
        rw [h2, ← h.2]; exact ⟨rfl, Nat.le_refl _⟩
      · rw [if_neg h2] at h; simp at h

/-- The `ctx.Done()` case proceeds if the channel is closed before the timer fires. -/
theorem selectWait_of_doneAfter {W : Type} (ctx : Context W) (w : W) (d : Nat)
    (h : ctx.doneAfter w = some d) (hd : d < 300) : selectWait ctx w = (.done, d) := by
  unfold selectWait
  rw [h]
  simp [hd]

/-- The timer case proceeds after 300 milliseconds. -/
theorem selectWait_timer {W : Type} (ctx : Context W) (w : W) (d : Nat)
    (h : selectWait ctx w = (.timer, d)) : d = 300 := by
  unfold selectWait at h
  cases hd : ctx.doneAfter w with
  | none => rw [hd] at h; simp at h; exact h.symm
  | some d0 =>
    rw [hd] at h
    simp only at h
    by_cases h1 : d0 < 300
    · rw [if_pos h1] at h; simp at h
    · rw [if_neg h1] at h
      by_cases h2 : d0 = 300
      · rw [if_pos h2] at h; simp at h; exact h.2.symm
      · rw [if_neg h2] at h; simp at h; exact h.symm

theorem MonitorGamesLoop_panicked {W : Type} (rt : Runtime W) (ctx : Context W) (fuel : Nat)
    (m : gameMonitor W) (w : W) (h : (progressGames rt m w).outcome = .panicked) :
    MonitorGamesLoop rt ctx (fuel + 1) m w =
      ⟨.panicked, (progressGames rt m w).monitor, (progressGames rt m w).world,
        (progressGames rt m w).events⟩ := by
  rw [MonitorGamesLoop]
  rcases hr : progressGames rt m w with ⟨o, m1, w1, ev⟩
  rw [hr] at h
  simp only at h
  subst h
  rfl

/-- The iteration in which the `ctx.Done()` case proceeds: `MonitorGames` returns
`ctx.Err()`. -/
theorem MonitorGamesLoop_done {W : Type} (rt : Runtime W) (ctx : Context W) (fuel : Nat)
    (m : gameMonitor W) (w : W) (err : Option GoError) (d : Nat)
    (h : (progressGames rt m w).outcome = .returned err)
    (hsel : selectWait ctx (progressGames rt m w).world = (.done, d)) :
    MonitorGamesLoop rt ctx (fuel + 1) m w =
      ⟨.returned (ctx.Err (ctx.elapse d (progressGames rt m w).world)),
        (progressGames rt m w).monitor, ctx.elapse d (progressGames rt m w).world,
        (progressGames rt m w).events ++
          (loggedForCycle err ++ [Event.selectWait d .done])⟩ := by
  rw [MonitorGamesLoop]
  rcases hr : progressGames rt m w with ⟨o, m1, w1, ev⟩
  rw [hr] at h hsel
  simp only at h hsel
  subst h
  simp only [hsel]

/-- The iteration in which the timer case proceeds: the loop goes on. -/
theorem MonitorGamesLoop_timer {W : Type} (rt : Runtime W) (ctx : Context W) (fuel : Nat)
    (m : gameMonitor W) (w : W) (err : Option GoError) (d : Nat)
    (h : (progressGames rt m w).outcome = .returned err)
    (hsel : selectWait ctx (progressGames rt m w).world = (.timer, d)) :
    MonitorGamesLoop rt ctx (fuel + 1) m w =
      ⟨(MonitorGamesLoop rt ctx fuel (progressGames rt m w).monitor
          (ctx.elapse d (progressGames rt m w).world)).outcome,
        (MonitorGamesLoop rt ctx fuel (progressGames rt m w).monitor
          (ctx.elapse d (progressGames rt m w).world)).monitor,
        (MonitorGamesLoop rt ctx fuel (progressGames rt m w).monitor
          (ctx.elapse d (progressGames rt m w).world)).world,
        (progressGames rt m w).events ++
          (loggedForCycle err ++ Event.selectWait d .timer ::
            (MonitorGamesLoop rt ctx fuel (progressGames rt m w).monitor
              (ctx.elapse d (progressGames rt m w).world)).events)⟩ := by
  rw [MonitorGamesLoop]
  rcases hr : progressGames rt m w with ⟨o, m1, w1, ev⟩
  rw [hr] at h hsel
  simp only at h hsel
  subst h
  simp only [hsel]

/-- The two cases of the `select` statement. -/
theorem selectWait_cases {W : Type} (ctx : Context W) (w : W) :
    (∃ d, selectWait ctx w = (.done, d)) ∨ (∃ d, selectWait ctx w = (.timer, d)) := by
  rcases h : selectWait ctx w with ⟨wake, d⟩
  cases wake with
  | timer => exact Or.inr ⟨d, rfl⟩
  | done => exact Or.inl ⟨d, rfl⟩

/-- Observing the loop for `k + n` iterations: the first `k`, and `n` more if the loop is
still running. -/
theorem MonitorGamesLoop_add {W : Type} (rt : Runtime W) (ctx : Context W) (n : Nat) (k : Nat) :
    ∀ (m : gameMonitor W) (w : W), (MonitorGamesLoop rt ctx k m w).outcome = .running →
      MonitorGamesLoop rt ctx (k + n) m w =
        ⟨(MonitorGamesLoop rt ctx n (MonitorGamesLoop rt ctx k m w).monitor
            (MonitorGamesLoop rt ctx k m w).world).outcome,
          (MonitorGamesLoop rt ctx n (MonitorGamesLoop rt ctx k m w).monitor
            (MonitorGamesLoop rt ctx k m w).world).monitor,
          (MonitorGamesLoop rt ctx n (MonitorGamesLoop rt ctx k m w).monitor
            (MonitorGamesLoop rt ctx k m w).world).world,
          (MonitorGamesLoop rt ctx k m w).events ++
            (MonitorGamesLoop rt ctx n (MonitorGamesLoop rt ctx k m w).monitor
              (MonitorGamesLoop rt ctx k m w).world).events⟩ := by
  induction k with
  | zero => intro m w _; simp [MonitorGamesLoop]
  | succ k ih =>
    intro m w hrun
    cases ho : (progressGames rt m w).outcome with
    | panicked =>
      rw [MonitorGamesLoop_panicked rt ctx k m w ho] at hrun; cases hrun
    | returned err =>
      rcases selectWait_cases ctx (progressGames rt m w).world with ⟨d, hsel⟩ | ⟨d, hsel⟩
      · rw [MonitorGamesLoop_done rt ctx k m w err d ho hsel] at hrun; cases hrun
      · rw [MonitorGamesLoop_timer rt ctx k m w err d ho hsel] at hrun
        have hadd : k + 1 + n = (k + n) + 1 := by omega
        rw [hadd, MonitorGamesLoop_timer rt ctx (k + n) m w err d ho hsel,
          MonitorGamesLoop_timer rt ctx k m w err d ho hsel, ih _ _ hrun]
        simp only [List.append_assoc, List.cons_append]

theorem getLast?_append_of_some (l1 l2 : List Event) (x : Event)
    (h : l2.getLast? = some x) : (l1 ++ l2).getLast? = some x := by
  rw [List.getLast?_append, h]; rfl

/-- If the loop of `MonitorGames` has returned, its last step was a wait in which the
`ctx.Done()` case proceeded, and the value returned is `ctx.Err()`. -/
theorem MonitorGamesLoop_returned {W : Type} (rt : Runtime W) (ctx : Context W) (fuel : Nat) :
    ∀ (m : gameMonitor W) (w : W) (v : Option GoError),
      (MonitorGamesLoop rt ctx fuel m w).outcome = .returned v →
      ∃ w0 d, ctx.doneAfter w0 = some d ∧ d ≤ 300 ∧
        (MonitorGamesLoop rt ctx fuel m w).world = ctx.elapse d w0 ∧
        v = ctx.Err (MonitorGamesLoop rt ctx fuel m w).world ∧
        (MonitorGamesLoop rt ctx fuel m w).events.getLast? = some (Event.selectWait d .done) := by
  induction fuel with
  | zero => intro m w v h; simp [MonitorGamesLoop] at h
  | succ fuel ih =>
    intro m w v h
    cases ho : (progressGames rt m w).outcome with
    | panicked => rw [MonitorGamesLoop_panicked rt ctx fuel m w ho] at h; cases h
    | returned err =>
      rcases selectWait_cases ctx (progressGames rt m w).world with ⟨d, hsel⟩ | ⟨d, hsel⟩
      · rw [MonitorGamesLoop_done rt ctx fuel m w err d ho hsel] at h ⊢
        simp only [LoopOutcome.returned.injEq] at h
        have hd := selectWait_done ctx _ d hsel
        refine ⟨(progressGames rt m w).world, d, hd.1, hd.2, rfl, h.symm, ?_⟩
        rw [← List.append_assoc]
        exact List.getLast?_concat _
      · rw [MonitorGamesLoop_timer rt ctx fuel m w err d ho hsel] at h ⊢
        obtain ⟨w0, d0, h1, h2, h3, h4, h5⟩ := ih _ _ v h
        refine ⟨w0, d0, h1, h2, h3, h4, ?_⟩
        apply getLast?_append_of_some
        apply getLast?_append_of_some
        rw [← List.singleton_append]
        exact getLast?_append_of_some _ _ _ h5

/-- C13 (only cancellation terminates the loop): whenever `MonitorGames` has returned, its last
step was a wait in which the `ctx.Done()` case proceeded, so the channel was closed (at most
300 milliseconds into that wait), and the value returned is `ctx.Err()` read after that wait;
and a cycle that returns an error does not end the loop: when the timer fires at the wait
that follows, the error is logged and the loop goes on with the next iteration. -/
theorem C13_only_cancellation_terminates {W : Type} (rt : Runtime W) (ctx : Context W)
    (fuel : Nat) (m : gameMonitor W) (w : W) :
    (∀ v, (MonitorGames rt ctx fuel m w).outcome = .returned v →
      ∃ w0 d, ctx.doneAfter w0 = some d ∧ d ≤ 300 ∧
        (MonitorGames rt ctx fuel m w).world = ctx.elapse d w0 ∧
        v = ctx.Err (MonitorGames rt ctx fuel m w).world ∧
        (MonitorGames rt ctx fuel m w).events.getLast? = some (Event.selectWait d .done)) ∧
    (∀ err d, (progressGames rt m w).outcome = .returned (some err) →
      selectWait ctx (progressGames rt m w).world = (.timer, d) →
      (MonitorGames rt ctx (fuel + 1) m w).outcome =
        (MonitorGamesLoop rt ctx fuel (progressGames rt m w).monitor
          (ctx.elapse 300 (progressGames rt m w).world)).outcome ∧
      (MonitorGames rt ctx (fuel + 1) m w).events =
        Event.logInfo "Monitoring fault dispute games" ::
          ((progressGames rt m w).events ++
            (Event.logError "Failed to progress games" none err ::
              Event.selectWait 300 .timer ::
              (MonitorGamesLoop rt ctx fuel (progressGames rt m w).monitor
                (ctx.elapse 300 (progressGames rt m w).world)).events))) := by
  constructor
  · intro v h
    obtain ⟨w0, d, h1, h2, h3, h4, h5⟩ := MonitorGamesLoop_returned rt ctx fuel m w v h
    refine ⟨w0, d, h1, h2, h3, h4, ?_⟩
    show (Event.logInfo "Monitoring fault dispute games" ::
      (MonitorGamesLoop rt ctx fuel m w).events).getLast? = _
    rw [← List.singleton_append]
    exact getLast?_append_of_some _ _ _ h5
  · intro err d ho hsel
    have hd := selectWait_timer ctx _ d hsel
    subst hd
    unfold MonitorGames
    rw [MonitorGamesLoop_timer rt ctx fuel m w (some err) 300 ho hsel]
    exact ⟨rfl, rfl⟩

/-- C13 at a concrete input: the first cycle fails (the game source is down) and the context
is not cancelled, so `MonitorGames` is still running after one iteration; the context is
cancelled during the second wait, where `MonitorGames` returns the error of the context. -/
theorem C13_only_cancellation_terminates_witness :
    (MonitorGames steadyRuntime cancelledInSecondWait 1
        (newGameMonitor fetchBlock100 sourceDown createAlways) 0).outcome = .running ∧
    (MonitorGames steadyRuntime cancelledInSecondWait 2
        (newGameMonitor fetchBlock100 sourceDown createAlways) 0).events =
      [Event.logInfo "Monitoring fault dispute games",
        Event.fetchBlockNumber, Event.FetchAllGamesAtBlock 100,
        Event.logError "Failed to progress games" none
          (Errorf "failed to load games: " (.leaf "rpc timeout")),
        Event.selectWait 300 .timer,
        Event.fetchBlockNumber, Event.FetchAllGamesAtBlock 100,
        Event.logError "Failed to progress games" none
          (Errorf "failed to load games: " (.leaf "rpc timeout")),
        Event.selectWait 120 .done] ∧
    ∃ w0 d, cancelledInSecondWait.doneAfter w0 = some d ∧ d ≤ 300 ∧
      (MonitorGames steadyRuntime cancelledInSecondWait 2
        (newGameMonitor fetchBlock100 sourceDown createAlways) 0).world =
          cancelledInSecondWait.elapse d w0 ∧
      some (GoError.leaf "context canceled") = cancelledInSecondWait.Err
        (MonitorGames steadyRuntime cancelledInSecondWait 2
          (newGameMonitor fetchBlock100 sourceDown createAlways) 0).world ∧
      (MonitorGames steadyRuntime cancelledInSecondWait 2
        (newGameMonitor fetchBlock100 sourceDown createAlways) 0).events.getLast? =
          some (Event.selectWait d .done) :=
  ⟨by decide, by decide,
    (C13_only_cancellation_terminates steadyRuntime cancelledInSecondWait 2
      (newGameMonitor fetchBlock100 sourceDown createAlways) 0).1
      (some (.leaf "context canceled")) (by decide)⟩

/-- C14 (cancellation terminates): let `MonitorGames` be still running after `k` iterations and
let the next cycle return. If the channel `ctx.Done()` is closed `d` < 300 milliseconds into
the wait that follows (`d` = 0: it was closed before the wait began), then `MonitorGames`
returns at that wait: observed for any number of iterations beyond `k`, it has returned
`ctx.Err()`, the wait lasted `d` milliseconds and is its last step, so that no further cycle
was started. -/
theorem C14_cancellation_terminates {W : Type} (rt : Runtime W) (ctx : Context W)
    (k fuel : Nat) (m : gameMonitor W) (w : W) (err : Option GoError) (d : Nat)
    (hrun : (MonitorGames rt ctx k m w).outcome = .running)
    (hcycle : (progressGames rt (MonitorGames rt ctx k m w).monitor
      (MonitorGames rt ctx k m w).world).outcome = .returned err)
    (hdone : ctx.doneAfter (progressGames rt (MonitorGames rt ctx k m w).monitor
      (MonitorGames rt ctx k m w).world).world = some d)
    (hd : d < 300) :
    MonitorGames rt ctx (k + (fuel + 1)) m w =
      ⟨.returned (ctx.Err (ctx.elapse d (progressGames rt (MonitorGames rt ctx k m w).monitor
          (MonitorGames rt ctx k m w).world).world)),
        (progressGames rt (MonitorGames rt ctx k m w).monitor
          (MonitorGames rt ctx k m w).world).monitor,
        ctx.elapse d (progressGames rt (MonitorGames rt ctx k m w).monitor
          (MonitorGames rt ctx k m w).world).world,
        (MonitorGames rt ctx k m w).events ++
          ((progressGames rt (MonitorGames rt ctx k m w).monitor
            (MonitorGames rt ctx k m w).world).events ++
            (loggedForCycle err ++ [Event.selectWait d .done]))⟩ := by
  have hsel := selectWait_of_doneAfter ctx _ d hdone hd
  unfold MonitorGames at hrun hcycle hsel ⊢
  simp only at hrun hcycle hsel ⊢
  rw [MonitorGamesLoop_add rt ctx (fuel + 1) k m w hrun,
    MonitorGamesLoop_done rt ctx fuel _ _ err d hcycle hsel]
  rfl

/-- C14 at a concrete input: the context is cancelled 120 milliseconds into the second wait
of the two-cycle scenario; `MonitorGames` returns there, whatever the number of iterations it
is observed for. -/
theorem C14_cancellation_terminates_witness :
    (MonitorGames steadyRuntime cancelledInSecondWait 1 scenarioMonitor 0).outcome = .running ∧
    (MonitorGames steadyRuntime cancelledInSecondWait (1 + (5 + 1)) scenarioMonitor 0).events =
      [Event.logInfo "Monitoring fault dispute games",
        Event.fetchBlockNumber, Event.FetchAllGamesAtBlock 100,
        Event.createGame 10 (.ok 110), Event.ProgressGame 110,
        Event.createGame 11 (.ok 111), Event.ProgressGame 111,
        Event.selectWait 300 .timer,
        Event.fetchBlockNumber, Event.FetchAllGamesAtBlock 100, Event.ProgressGame 110,
        Event.createGame 12 (.ok 112), Event.ProgressGame 112,
        Event.selectWait 120 .done] ∧
    MonitorGames steadyRuntime cancelledInSecondWait (1 + (5 + 1)) scenarioMonitor 0 =
      ⟨.returned (cancelledInSecondWait.Err (cancelledInSecondWait.elapse 120
          (progressGames steadyRuntime
            (MonitorGames steadyRuntime cancelledInSecondWait 1 scenarioMonitor 0).monitor
            (MonitorGames steadyRuntime cancelledInSecondWait 1 scenarioMonitor 0).world).world)),
        (progressGames steadyRuntime
          (MonitorGames steadyRuntime cancelledInSecondWait 1 scenarioMonitor 0).monitor
          (MonitorGames steadyRuntime cancelledInSecondWait 1 scenarioMonitor 0).world).monitor,
        cancelledInSecondWait.elapse 120 (progressGames steadyRuntime
          (MonitorGames steadyRuntime cancelledInSecondWait 1 scenarioMonitor 0).monitor
          (MonitorGames steadyRuntime cancelledInSecondWait 1 scenarioMonitor 0).world).world,
        (MonitorGames steadyRuntime cancelledInSecondWait 1 scenarioMonitor 0).events ++
          ((progressGames steadyRuntime
            (MonitorGames steadyRuntime cancelledInSecondWait 1 scenarioMonitor 0).monitor
            (MonitorGames steadyRuntime cancelledInSecondWait 1 scenarioMonitor 0).world).events ++
            (loggedForCycle none ++ [Event.selectWait 120 .done]))⟩ :=
  ⟨by decide, by decide,
    C14_cancellation_terminates steadyRuntime cancelledInSecondWait 1 5 scenarioMonitor 0 none 120
      (by decide) (by decide) (by decide) (by decide)⟩

/-! ## Waits and cycles -/

theorem progressGame_no_wait {W : Type} (rt : Runtime W) (m : gameMonitor W)
    (gameData : FaultDisputeGame) (w : W) :
    (progressGame rt m gameData w).events.countP Event.isWait = 0 ∧
    (progressGame rt m gameData w).events.countP Event.isFetchBlockNumber = 0 := by
  rcases progressGame_cases rt m gameData w with ⟨game, _, heq⟩ | ⟨err, w1, _, _, heq⟩ |
    ⟨newGame, w1, _, _, heq⟩
  · rw [heq, callProgressGame_events]; exact ⟨rfl, rfl⟩
  · rw [heq]; exact ⟨rfl, rfl⟩
  · rw [heq, callProgressGame_events]; exact ⟨rfl, rfl⟩

theorem loggedFor_no_wait (game : FaultDisputeGame) (e : Option GoError) :
    (loggedFor game e).countP Event.isWait = 0 ∧
    (loggedFor game e).countP Event.isFetchBlockNumber = 0 := by
  cases e <;> exact ⟨rfl, rfl⟩

theorem loggedForCycle_no_wait (e : Option GoError) :
    (loggedForCycle e).countP Event.isWait = 0 ∧
    (loggedForCycle e).countP Event.isFetchBlockNumber = 0 := by
  cases e <;> exact ⟨rfl, rfl⟩

theorem progressGamesLoop_no_wait {W : Type} (rt : Runtime W)
    (games : List FaultDisputeGame) :
    ∀ (m : gameMonitor W) (w : W),
      (progressGamesLoop rt games m w).events.countP Event.isWait = 0 ∧
      (progressGamesLoop rt games m w).events.countP Event.isFetchBlockNumber = 0 := by
  induction games with
  | nil => intro m w; exact ⟨rfl, rfl⟩
  | cons first rest ih =>
    intro m w
    have h1 := progressGame_no_wait rt m first w
    cases ho : (progressGame rt m first w).outcome with
    | panicked => rw [progressGamesLoop_panicked rt first rest m w ho]; exact h1
    | returned e =>
      rw [progressGamesLoop_returned rt first rest m w e ho]
      have h2 := loggedFor_no_wait first e
      have h3 := ih (progressGame rt m first w).monitor (progressGame rt m first w).world
      simp [List.countP_append, h1.1, h1.2, h2.1, h2.2, h3.1, h3.2]

/-- A cycle makes no wait and calls `fetchBlockNumber` exactly once. -/
theorem progressGames_no_wait {W : Type} (rt : Runtime W) (m : gameMonitor W) (w : W) :
    (progressGames rt m w).events.countP Event.isWait = 0 ∧
    (progressGames rt m w).events.countP Event.isFetchBlockNumber = 1 := by
  rcases progressGames_cases m w with ⟨err, w1, hbn⟩ | ⟨bn, w1, err, w2, hbn, hsrc⟩ |
    ⟨bn, w1, games, w2, hbn, hsrc⟩
  · rw [progressGames_blockNumber_error rt m w w1 err hbn]; exact ⟨rfl, rfl⟩
  · rw [progressGames_source_error rt m w w1 w2 bn err hbn hsrc]; exact ⟨rfl, rfl⟩
  · rw [progressGames_listed rt m w w1 w2 bn games hbn hsrc]
    have h := progressGamesLoop_no_wait rt games m w2
    simp [List.countP_cons, Event.isWait, Event.isFetchBlockNumber, h.1, h.2]

/-- As long as no panic unwinds, the loop of `MonitorGames` has made one wait for each cycle
it has run. -/
theorem MonitorGamesLoop_waits {W : Type} (rt : Runtime W) (ctx : Context W) (fuel : Nat) :
    ∀ (m : gameMonitor W) (w : W), (MonitorGamesLoop rt ctx fuel m w).outcome ≠ .panicked →
      (MonitorGamesLoop rt ctx fuel m w).events.countP Event.isWait =
        (MonitorGamesLoop rt ctx fuel m w).events.countP Event.isFetchBlockNumber := by
  induction fuel with
  | zero => intro m w _; rfl
  | succ fuel ih =>
    intro m w hout
    have h1 := progressGames_no_wait rt m w
    cases ho : (progressGames rt m w).outcome with
    | panicked =>
      rw [MonitorGamesLoop_panicked rt ctx fuel m w ho] at hout; exact absurd rfl hout
    | returned err =>
      have h2 := loggedForCycle_no_wait err
      rcases selectWait_cases ctx (progressGames rt m w).world with ⟨d, hsel⟩ | ⟨d, hsel⟩
      · rw [MonitorGamesLoop_done rt ctx fuel m w err d ho hsel]
        simp [List.countP_append, List.countP_cons, h1.1, h1.2, h2.1, h2.2, Event.isWait,
          Event.isFetchBlockNumber]
      · rw [MonitorGamesLoop_timer rt ctx fuel m w err d ho hsel] at hout ⊢
        have h3 := ih _ _ hout
        simp only [List.countP_append, List.countP_cons, h1.1, h1.2, h2.1, h2.2, h3,
          Event.isWait, Event.isFetchBlockNumber]
        simp
        omega

theorem Attempted.mono {games : GameMap} {ev ev' : List Event} {game : FaultDisputeGame}
    (h : Attempted games ev game) (hsub : ∀ e ∈ ev, e ∈ ev') : Attempted games ev' game := by
  rcases h with ⟨g, hg, hmem⟩ | ⟨hn, err, hmem⟩
  · exact Or.inl ⟨g, hg, hsub _ hmem⟩
  · exact Or.inr ⟨hn, err, hsub _ hmem⟩

/-- The first iteration of `MonitorGames` begins with a whole cycle. -/
theorem MonitorGames_first_cycle {W : Type} (rt : Runtime W) (ctx : Context W) (fuel : Nat)
    (m : gameMonitor W) (w : W) :
    ∃ rest, (MonitorGames rt ctx (fuel + 1) m w).events =
      Event.logInfo "Monitoring fault dispute games" ::
        ((progressGames rt m w).events ++ rest) := by
  unfold MonitorGames
  cases ho : (progressGames rt m w).outcome with
  | panicked =>
    rw [MonitorGamesLoop_panicked rt ctx fuel m w ho]
    exact ⟨[], by simp⟩
  | returned err =>
    rcases selectWait_cases ctx (progressGames rt m w).world with ⟨d, hsel⟩ | ⟨d, hsel⟩
    · rw [MonitorGamesLoop_done rt ctx fuel m w err d ho hsel]
      exact ⟨_, rfl⟩
    · rw [MonitorGamesLoop_timer rt ctx fuel m w err d ho hsel]
      exact ⟨_, rfl⟩

theorem MonitorGamesLoop_returning {W : Type} (ProgressGame : Agent → W → Bool × W)
    (addressString : Address → String) (ctx : Context W) (fuel : Nat) :
    ∀ (m : gameMonitor W) (w : W),
      (MonitorGamesLoop (Runtime.returning ProgressGame addressString) ctx fuel m w).outcome
        ≠ .panicked := by
  induction fuel with
  | zero => intro m w; simp [MonitorGamesLoop]
  | succ fuel ih =>
    intro m w
    cases ho : (progressGames (Runtime.returning ProgressGame addressString) m w).outcome with
    | panicked => exact absurd ho (progressGames_returning ProgressGame addressString m w)
    | returned err =>
      rcases selectWait_cases ctx
        (progressGames (Runtime.returning ProgressGame addressString) m w).world with
        ⟨d, hsel⟩ | ⟨d, hsel⟩
      · rw [MonitorGamesLoop_done _ ctx fuel m w err d ho hsel]; simp
      · rw [MonitorGamesLoop_timer _ ctx fuel m w err d ho hsel]; exact ih _ _

/-! ## Cycles and panics -/

/-- A cycle that is not ended by a panic has a loop that is not ended by a panic. -/
theorem progressGamesLoop_of_cycle {W : Type} (rt : Runtime W) (m : gameMonitor W)
    (w w1 w2 : W) (blockNum : Uint64) (listing : List FaultDisputeGame)
    (hbn : m.fetchBlockNumber w = (.ok blockNum, w1))
    (hsrc : m.source (SetUint64 blockNum) w1 = (.ok listing, w2))
    (hret : (progressGames rt m w).outcome ≠ .panicked) :
    (progressGamesLoop rt listing m w2).outcome ≠ .panicked := by
  intro h
  rw [progressGames_listed rt m w w1 w2 blockNum listing hbn hsrc] at hret
  simp only [h, cycleOutcome] at hret
  exact hret rfl

/-- A loop that is not ended by a panic was not ended by a panic after any prefix of the
listing. -/
theorem progressGamesLoop_prefix {W : Type} (rt : Runtime W) (l1 l2 : List FaultDisputeGame) :
    ∀ (m : gameMonitor W) (w : W), (progressGamesLoop rt (l1 ++ l2) m w).outcome ≠ .panicked →
      (progressGamesLoop rt l1 m w).outcome ≠ .panicked := by
  induction l1 with
  | nil => intro m w _; simp [progressGamesLoop]
  | cons first rest ih =>
    intro m w hout
    cases ho : (progressGame rt m first w).outcome with
    | panicked =>
      rw [List.cons_append, progressGamesLoop_panicked rt first (rest ++ l2) m w ho] at hout
      exact absurd rfl hout
    | returned e =>
      rw [List.cons_append, progressGamesLoop_returned rt first (rest ++ l2) m w e ho] at hout
      rw [progressGamesLoop_returned rt first rest m w e ho]
      exact ih _ _ hout

/-- The block number and the listing of a cycle are determined by the monitor and the
world. -/
theorem discovery_unique {W : Type} (m : gameMonitor W) (w w1 w2 v1 v2 : W)
    (bn bn0 : Uint64) (listing listing0 : List FaultDisputeGame)
    (hbn : m.fetchBlockNumber w = (.ok bn, w1))
    (hsrc : m.source (SetUint64 bn) w1 = (.ok listing, w2))
    (hbn0 : m.fetchBlockNumber w = (.ok bn0, v1))
    (hsrc0 : m.source (SetUint64 bn0) v1 = (.ok listing0, v2)) :
    listing0 = listing ∧ v2 = w2 := by
  rw [hbn] at hbn0
  simp only [Prod.mk.injEq, Returned.ok.injEq] at hbn0
  obtain ⟨hb, hw⟩ := hbn0
  subst hb; subst hw
  rw [hsrc] at hsrc0
  simp only [Prod.mk.injEq, Returned.ok.injEq] at hsrc0
  exact ⟨hsrc0.1.symm, hsrc0.2.symm⟩

/-- C4, as stated, fails: addresses 10 and 11 are cached, the listing is 13, 10, 11,
`createGame` fails for 13 and `ProgressGame` panics on the agent of 10; the panic unwinds
through `progressGames`, and the record of 11, listed after the failing record, is not
attempted. -/
theorem C4_panic_ends_the_cycle :
    (progressGames panickingRuntime
        { newGameMonitor fetchBlock100 (sourceOf [[13, 10, 11]]) (createExcept 13) with
          games := [(10, 110), (11, 111)] } 0).events =
      [Event.fetchBlockNumber, Event.FetchAllGamesAtBlock 100,
        Event.createGame 13 (.error (.leaf "no such game")),
        Event.logError "Error while progressing game" (some 13)
          (Errorf "failed to progress game 0x: " (.leaf "no such game")),
        Event.ProgressGame 110] ∧
    (progressGames panickingRuntime
        { newGameMonitor fetchBlock100 (sourceOf [[13, 10, 11]]) (createExcept 13) with
          games := [(10, 110), (11, 111)] } 0).outcome = .panicked ∧
    Event.ProgressGame 111 ∉
      (progressGames panickingRuntime
        { newGameMonitor fetchBlock100 (sourceOf [[13, 10, 11]]) (createExcept 13) with
          games := [(10, 110), (11, 111)] } 0).events := by
  decide

/-- C4 (per-game failure isolation), amended: in a cycle whose block-number fetch and listing
succeed and that is not ended by a panic in `ProgressGame`, every listed record is attempted,
whatever `createGame` calls fail in the cycle and wherever the failing records stand in the
listing: if its address was cached before the cycle, `ProgressGame` is called on the cached
agent; if a `createGame` call for its address succeeds, `ProgressGame` is called on the new
agent; and in every case either its address is cached after the cycle and `ProgressGame` was
called on the cached agent, or a `createGame` call for its address failed. -/
theorem C4_failure_isolation {W : Type} (rt : Runtime W) (m : gameMonitor W) (w w1 w2 : W)
    (blockNum : Uint64) (listing : List FaultDisputeGame)
    (hbn : m.fetchBlockNumber w = (.ok blockNum, w1))
    (hsrc : m.source (SetUint64 blockNum) w1 = (.ok listing, w2))
    (hret : (progressGames rt m w).outcome ≠ .panicked) :
    ∀ other ∈ listing,
      (∀ g, m.games.get other.Proxy = some g →
        Event.ProgressGame g ∈ (progressGames rt m w).events) ∧
      (∀ g, Event.createGame other.Proxy (.ok g) ∈ (progressGames rt m w).events →
        Event.ProgressGame g ∈ (progressGames rt m w).events) ∧
      ((∃ g, (progressGames rt m w).monitor.games.get other.Proxy = some g ∧
          Event.ProgressGame g ∈ (progressGames rt m w).events) ∨
        ((progressGames rt m w).monitor.games.get other.Proxy = none ∧
          ∃ err, Event.createGame other.Proxy (.error err) ∈ (progressGames rt m w).events)) := by
  intro other hmem
  have hatt := progressGames_attempted rt m w w1 w2 blockNum listing hbn hsrc hret other hmem
  exact ⟨fun g hg => hatt.of_cached (progressGames_sound _ m w) g hg,
    fun g hg => progressGames_createdProgressed _ m w _ g hg, hatt⟩

/-- C4 amended, at a concrete input: in the runtime where agent 110 panics, addresses 11 and
12 are cached, the listing is 11, 13, 12, 14 and `createGame` fails for 13; the cycle returns,
the agents of 11 and 12 and the new agent of 14 are progressed. -/
theorem C4_failure_isolation_witness :
    (progressGames panickingRuntime
        { newGameMonitor fetchBlock100 (sourceOf [[11, 13, 12, 14]]) (createExcept 13) with
          games := [(11, 111), (12, 112)] } 0).events =
      [Event.fetchBlockNumber, Event.FetchAllGamesAtBlock 100, Event.ProgressGame 111,
        Event.createGame 13 (.error (.leaf "no such game")),
        Event.logError "Error while progressing game" (some 13)
          (Errorf "failed to progress game 0x: " (.leaf "no such game")),
        Event.ProgressGame 112, Event.createGame 14 (.ok 114), Event.ProgressGame 114] ∧
    ∀ other ∈ [(⟨11, 0⟩ : FaultDisputeGame), ⟨13, 0⟩, ⟨12, 0⟩, ⟨14, 0⟩],
      (∀ g, GameMap.get [(11, 111), (12, 112)] other.Proxy = some g → Event.ProgressGame g ∈
        (progressGames panickingRuntime
          { newGameMonitor fetchBlock100 (sourceOf [[11, 13, 12, 14]]) (createExcept 13) with
            games := [(11, 111), (12, 112)] } 0).events) ∧
      (∀ g, Event.createGame other.Proxy (.ok g) ∈
          (progressGames panickingRuntime
            { newGameMonitor fetchBlock100 (sourceOf [[11, 13, 12, 14]]) (createExcept 13) with
              games := [(11, 111), (12, 112)] } 0).events →
        Event.ProgressGame g ∈
          (progressGames panickingRuntime
            { newGameMonitor fetchBlock100 (sourceOf [[11, 13, 12, 14]]) (createExcept 13) with
              games := [(11, 111), (12, 112)] } 0).events) ∧
      ((∃ g, (progressGames panickingRuntime
            { newGameMonitor fetchBlock100 (sourceOf [[11, 13, 12, 14]]) (createExcept 13) with
              games := [(11, 111), (12, 112)] } 0).monitor.games.get other.Proxy = some g ∧
          Event.ProgressGame g ∈
            (progressGames panickingRuntime
              { newGameMonitor fetchBlock100 (sourceOf [[11, 13, 12, 14]]) (createExcept 13) with
                games := [(11, 111), (12, 112)] } 0).events) ∨
        ((progressGames panickingRuntime
            { newGameMonitor fetchBlock100 (sourceOf [[11, 13, 12, 14]]) (createExcept 13) with
              games := [(11, 111), (12, 112)] } 0).monitor.games.get other.Proxy = none ∧
          ∃ err, Event.createGame other.Proxy (.error err) ∈
            (progressGames panickingRuntime
              { newGameMonitor fetchBlock100 (sourceOf [[11, 13, 12, 14]]) (createExcept 13) with
                games := [(11, 111), (12, 112)] } 0).events)) :=
  ⟨by decide,
    C4_failure_isolation panickingRuntime
      { newGameMonitor fetchBlock100 (sourceOf [[11, 13, 12, 14]]) (createExcept 13) with
        games := [(11, 111), (12, 112)] } 0 0 1 100 [⟨11, 0⟩, ⟨13, 0⟩, ⟨12, 0⟩, ⟨14, 0⟩]
      (by decide) (by decide) (by decide)⟩

/-- C5 (isolation of a failing progression), amended: `ProgressGame` has no error result, and
in a cycle whose discovery succeeds,
whatever booleans the `ProgressGame` calls return, if the cycle is not ended by a panic then
the agent cached before the cycle for a listed address is progressed, and so is the agent
bound after the cycle to a listed address;
and if the records before a listed record are processed without a panic and `ProgressGame`
panics while that record is processed, the panic is not recovered: `progressGames` does not
return, and the calls of the cycle are the two discovery calls, the calls made for the records
before that record and the calls made for that record, with no call for the records listed
after it. -/
theorem C5_isolation_unless_panic {W : Type} (rt : Runtime W) (m : gameMonitor W)
    (w w1 w2 : W) (blockNum : Uint64) (listing : List FaultDisputeGame)
    (hbn : m.fetchBlockNumber w = (.ok blockNum, w1))
    (hsrc : m.source (SetUint64 blockNum) w1 = (.ok listing, w2)) :
    ((progressGames rt m w).outcome ≠ .panicked →
      ∀ other ∈ listing,
        (∀ g, m.games.get other.Proxy = some g →
          Event.ProgressGame g ∈ (progressGames rt m w).events) ∧
        (∀ g, (progressGames rt m w).monitor.games.get other.Proxy = some g →
          Event.ProgressGame g ∈ (progressGames rt m w).events)) ∧
    (∀ (pre : List FaultDisputeGame) (game : FaultDisputeGame) (post : List FaultDisputeGame),
      listing = pre ++ game :: post →
      (progressGamesLoop rt pre m w2).outcome ≠ .panicked →
      (progressGame rt (progressGamesLoop rt pre m w2).monitor game
        (progressGamesLoop rt pre m w2).world).outcome = .panicked →
      progressGames rt m w =
        ⟨.panicked,
          (progressGame rt (progressGamesLoop rt pre m w2).monitor game
            (progressGamesLoop rt pre m w2).world).monitor,
          (progressGame rt (progressGamesLoop rt pre m w2).monitor game
            (progressGamesLoop rt pre m w2).world).world,
          Event.fetchBlockNumber :: Event.FetchAllGamesAtBlock (SetUint64 blockNum) ::
            ((progressGamesLoop rt pre m w2).events ++
              (progressGame rt (progressGamesLoop rt pre m w2).monitor game
                (progressGamesLoop rt pre m w2).world).events)⟩) := by
  constructor
  · intro hret other hmem
    have hatt := progressGames_attempted rt m w w1 w2 blockNum listing hbn hsrc hret other hmem
    refine ⟨fun g hg => hatt.of_cached (progressGames_sound _ m w) g hg, ?_⟩
    intro g hg
    rcases hatt with ⟨g', hg', hmem'⟩ | ⟨hn, _⟩
    · rw [hg] at hg'; cases hg'; exact hmem'
    · rw [hg] at hn; cases hn
  · intro pre game post hsplit hpre hpanic
    rw [progressGames_listed rt m w w1 w2 blockNum listing hbn hsrc, hsplit,
      progressGamesLoop_append rt pre (game :: post) m w2 hpre,
      progressGamesLoop_panicked rt game post _ _ hpanic]
    rfl

/-- C5 amended, at concrete inputs, in the runtime where only agent 110 panics: a cycle that
lists the cached addresses 11 and 12 returns and progresses both agents although both calls
answer `false`; a cycle that lists 11, 10, 11 progresses agent 111, panics on agent 110 and
makes no call for the third record. -/
theorem C5_isolation_unless_panic_witness :
    ((progressGames panickingRuntime
        { newGameMonitor fetchBlock100 (sourceOf [[11, 12]]) createAlways with
          games := [(11, 111), (12, 112)] } 0).outcome = .returned none ∧
      (progressGames panickingRuntime
        { newGameMonitor fetchBlock100 (sourceOf [[11, 10, 11]]) createAlways with
          games := [(10, 110), (11, 111)] } 0).events =
        [Event.fetchBlockNumber, Event.FetchAllGamesAtBlock 100, Event.ProgressGame 111,
          Event.ProgressGame 110]) ∧
    (∀ other ∈ [(⟨11, 0⟩ : FaultDisputeGame), ⟨12, 0⟩],
      (∀ g, GameMap.get [(11, 111), (12, 112)] other.Proxy = some g →
        Event.ProgressGame g ∈ (progressGames panickingRuntime
          { newGameMonitor fetchBlock100 (sourceOf [[11, 12]]) createAlways with
            games := [(11, 111), (12, 112)] } 0).events) ∧
      (∀ g, (progressGames panickingRuntime
          { newGameMonitor fetchBlock100 (sourceOf [[11, 12]]) createAlways with
            games := [(11, 111), (12, 112)] } 0).monitor.games.get other.Proxy = some g →
        Event.ProgressGame g ∈ (progressGames panickingRuntime
          { newGameMonitor fetchBlock100 (sourceOf [[11, 12]]) createAlways with
            games := [(11, 111), (12, 112)] } 0).events)) ∧
    progressGames panickingRuntime
        { newGameMonitor fetchBlock100 (sourceOf [[11, 10, 11]]) createAlways with
          games := [(10, 110), (11, 111)] } 0 =
      ⟨.panicked,
        (progressGame panickingRuntime
          (progressGamesLoop panickingRuntime [⟨11, 0⟩]
            { newGameMonitor fetchBlock100 (sourceOf [[11, 10, 11]]) createAlways with
              games := [(10, 110), (11, 111)] } 1).monitor ⟨10, 0⟩
          (progressGamesLoop panickingRuntime [⟨11, 0⟩]
            { newGameMonitor fetchBlock100 (sourceOf [[11, 10, 11]]) createAlways with
              games := [(10, 110), (11, 111)] } 1).world).monitor,
        (progressGame panickingRuntime
          (progressGamesLoop panickingRuntime [⟨11, 0⟩]
            { newGameMonitor fetchBlock100 (sourceOf [[11, 10, 11]]) createAlways with
              games := [(10, 110), (11, 111)] } 1).monitor ⟨10, 0⟩
          (progressGamesLoop panickingRuntime [⟨11, 0⟩]
            { newGameMonitor fetchBlock100 (sourceOf [[11, 10, 11]]) createAlways with
              games := [(10, 110), (11, 111)] } 1).world).world,
        Event.fetchBlockNumber :: Event.FetchAllGamesAtBlock (SetUint64 100) ::
          ((progressGamesLoop panickingRuntime [⟨11, 0⟩]
            { newGameMonitor fetchBlock100 (sourceOf [[11, 10, 11]]) createAlways with
              games := [(10, 110), (11, 111)] } 1).events ++
            (progressGame panickingRuntime
              (progressGamesLoop panickingRuntime [⟨11, 0⟩]
                { newGameMonitor fetchBlock100 (sourceOf [[11, 10, 11]]) createAlways with
                  games := [(10, 110), (11, 111)] } 1).monitor ⟨10, 0⟩
              (progressGamesLoop panickingRuntime [⟨11, 0⟩]
                { newGameMonitor fetchBlock100 (sourceOf [[11, 10, 11]]) createAlways with
                  games := [(10, 110), (11, 111)] } 1).world).events)⟩ :=
  ⟨by decide,
    (C5_isolation_unless_panic panickingRuntime
      { newGameMonitor fetchBlock100 (sourceOf [[11, 12]]) createAlways with
        games := [(11, 111), (12, 112)] } 0 0 1 100 [⟨11, 0⟩, ⟨12, 0⟩] (by decide)
      (by decide)).1 (by decide),
    (C5_isolation_unless_panic panickingRuntime
      { newGameMonitor fetchBlock100 (sourceOf [[11, 10, 11]]) createAlways with
        games := [(10, 110), (11, 111)] } 0 0 1 100 [⟨11, 0⟩, ⟨10, 0⟩, ⟨11, 0⟩] (by decide)
      (by decide)).2 [⟨11, 0⟩] ⟨10, 0⟩ [⟨11, 0⟩] rfl (by decide) (by decide)⟩

/-- C8, as stated, fails: the block number is fetched and the listing, which holds the cached
address 10, is obtained, `ProgressGame` panics on the agent of 10, and `progressGames` does
not return `nil`: it does not return. -/
theorem C8_no_nil_when_panicking :
    fetchBlock100 0 = (.ok 100, 0) ∧
    sourceOf [[10]] (SetUint64 100) 0 = (.ok [⟨10, 0⟩], 1) ∧
    (progressGames panickingRuntime
        { newGameMonitor fetchBlock100 (sourceOf [[10]]) createAlways with
          games := [(10, 110)] } 0).outcome = .panicked ∧
    (progressGames panickingRuntime
        { newGameMonitor fetchBlock100 (sourceOf [[10]]) createAlways with
          games := [(10, 110)] } 0).outcome ≠ .returned none := by
  decide

/-- C8 (a cycle fails if and only if discovery fails), amended: `progressGames` returns a
non-nil error exactly when `fetchBlockNumber` or `FetchAllGamesAtBlock` fails; it returns `nil`
exactly when both succeed and the loop over the listing is not ended by a panic in
`ProgressGame`, whatever the listing and whatever `createGame` answers for the listed records;
and with agents that return from `ProgressGame` it always returns, and returns `nil` exactly
when both succeed. -/
theorem C8_cycle_fails_iff_discovery_fails {W : Type} (rt : Runtime W) (m : gameMonitor W)
    (w : W) :
    ((∃ e, (progressGames rt m w).outcome = .returned (some e)) ↔
      ¬ ∃ blockNum w1 listing w2, m.fetchBlockNumber w = (.ok blockNum, w1) ∧
          m.source (SetUint64 blockNum) w1 = (.ok listing, w2)) ∧
    ((progressGames rt m w).outcome = .returned none ↔
      ∃ blockNum w1 listing w2, m.fetchBlockNumber w = (.ok blockNum, w1) ∧
          m.source (SetUint64 blockNum) w1 = (.ok listing, w2) ∧
          (progressGamesLoop rt listing m w2).outcome ≠ .panicked) ∧
    (∀ (ProgressGame : Agent → W → Bool × W) (addressString : Address → String),
      (∃ e, (progressGames (Runtime.returning ProgressGame addressString) m w).outcome
        = .returned e) ∧
      ((progressGames (Runtime.returning ProgressGame addressString) m w).outcome
          = .returned none ↔
        ∃ blockNum w1 listing w2, m.fetchBlockNumber w = (.ok blockNum, w1) ∧
          m.source (SetUint64 blockNum) w1 = (.ok listing, w2))) := by
  rcases progressGames_cases m w with ⟨err, w1, hbn⟩ | ⟨bn, w1, err, w2, hbn, hsrc⟩ |
    ⟨bn, w1, games, w2, hbn, hsrc⟩
  · have hno : ¬ ∃ blockNum w1 listing w2, m.fetchBlockNumber w = (.ok blockNum, w1) ∧
        m.source (SetUint64 blockNum) w1 = (.ok listing, w2) := by
      rintro ⟨bn, v1, _, _, h, _⟩
      rw [hbn] at h; simp at h
    refine ⟨?_, ?_, ?_⟩
    · rw [progressGames_blockNumber_error rt m w w1 err hbn]
      exact ⟨fun _ => hno, fun _ => ⟨_, rfl⟩⟩
    · rw [progressGames_blockNumber_error rt m w w1 err hbn]
      constructor
      · intro h; simp at h
      · rintro ⟨bn, v1, l, v2, h1, h2, _⟩
        exact absurd ⟨bn, v1, l, v2, h1, h2⟩ hno
    · intro pg str
      rw [progressGames_blockNumber_error _ m w w1 err hbn]
      refine ⟨⟨_, rfl⟩, ?_⟩
      constructor
      · intro h; simp at h
      · intro h; exact absurd h hno
  · have hno : ¬ ∃ blockNum w1 listing w2, m.fetchBlockNumber w = (.ok blockNum, w1) ∧
        m.source (SetUint64 blockNum) w1 = (.ok listing, w2) := by
      rintro ⟨bn', v1, _, _, h, h2⟩
      rw [hbn] at h
      simp only [Prod.mk.injEq, Returned.ok.injEq] at h
      obtain ⟨hb, hw⟩ := h
      subst hb; subst hw
      rw [hsrc] at h2; simp at h2
    refine ⟨?_, ?_, ?_⟩
    · rw [progressGames_source_error rt m w w1 w2 bn err hbn hsrc]
      exact ⟨fun _ => hno, fun _ => ⟨_, rfl⟩⟩
    · rw [progressGames_source_error rt m w w1 w2 bn err hbn hsrc]
      constructor
      · intro h; simp at h
      · rintro ⟨bn', v1, l, v2, h1, h2, _⟩
        exact absurd ⟨bn', v1, l, v2, h1, h2⟩ hno
    · intro pg str
      rw [progressGames_source_error _ m w w1 w2 bn err hbn hsrc]
      refine ⟨⟨_, rfl⟩, ?_⟩
      constructor
      · intro h; simp at h
      · intro h; exact absurd h hno
  · refine ⟨?_, ?_, ?_⟩
    · rw [progressGames_listed rt m w w1 w2 bn games hbn hsrc]
      constructor
      · rintro ⟨e, he⟩
        cases hl : (progressGamesLoop rt games m w2).outcome <;>
          simp [hl, cycleOutcome] at he
      · intro h; exact absurd ⟨bn, w1, games, w2, hbn, hsrc⟩ h
    · rw [progressGames_listed rt m w w1 w2 bn games hbn hsrc]
      constructor
      · intro h
        refine ⟨bn, w1, games, w2, hbn, hsrc, ?_⟩
        intro hl
        simp [hl, cycleOutcome] at h
      · rintro ⟨bn0, v1, l0, v2, h1, h2, h3⟩
        obtain ⟨hl, hv⟩ := discovery_unique m w w1 w2 v1 v2 bn bn0 games l0 hbn hsrc h1 h2
        subst hl; subst hv
        cases hl : (progressGamesLoop rt l0 m v2).outcome with
        | panicked => exact absurd hl h3
        | returned u => rfl
    · intro pg str
      rw [progressGames_listed _ m w w1 w2 bn games hbn hsrc,
        progressGamesLoop_returning pg str games m w2]
      exact ⟨⟨_, rfl⟩, fun _ => ⟨bn, w1, games, w2, hbn, hsrc⟩, fun _ => rfl⟩

/-- C9, as stated, fails in its last part: the listing is 13, 10, `createGame` fails for 13,
which is not cached, and `ProgressGame` panics on the cached agent of 10; the cycle in which
the construction failed does not return `nil`: it does not return. -/
theorem C9_enclosing_cycle_panics :
    (progressGames panickingRuntime
        { newGameMonitor fetchBlock100 (sourceOf [[13, 10]]) (createExcept 13) with
          games := [(10, 110)] } 0).events =
      [Event.fetchBlockNumber, Event.FetchAllGamesAtBlock 100,
        Event.createGame 13 (.error (.leaf "no such game")),
        Event.logError "Error while progressing game" (some 13)
          (Errorf "failed to progress game 0x: " (.leaf "no such game")),
        Event.ProgressGame 110] ∧
    (progressGames panickingRuntime
        { newGameMonitor fetchBlock100 (sourceOf [[13, 10]]) (createExcept 13) with
          games := [(10, 110)] } 0).outcome = .panicked ∧
    (progressGames panickingRuntime
        { newGameMonitor fetchBlock100 (sourceOf [[13, 10]]) (createExcept 13) with
          games := [(10, 110)] } 0).outcome ≠ .returned none := by
  decide

/-- C9 (failed construction of one game), amended: if the address of the record is not cached
and `createGame` returns the error `err` for it, then `progressGame` returns a non-nil error
that wraps `err` and whose message is "failed to progress game ", the textual form of the
address, ": " and the message of `err`; the map is what it was and still does not bind the
address; no `ProgressGame` call is made; and a cycle in which such a failed `createGame` call
occurs returns `nil` unless it is ended by a panic in `ProgressGame`. -/
theorem C9_failed_construction {W : Type} (rt : Runtime W) (m : gameMonitor W)
    (gameData : FaultDisputeGame) (w w1 : W) (err : GoError)
    (hn : m.games.get gameData.Proxy = none)
    (hc : m.createGame gameData.Proxy w = (.error err, w1)) :
    (∃ e, (progressGame rt m gameData w).outcome = .returned (some e) ∧ e.Unwrap = some err ∧
      e.Error = "failed to progress game " ++ rt.addressString gameData.Proxy ++ ": " ++
        err.Error) ∧
    (progressGame rt m gameData w).monitor.games = m.games ∧
    (progressGame rt m gameData w).monitor.games.get gameData.Proxy = none ∧
    (∀ g, Event.ProgressGame g ∉ (progressGame rt m gameData w).events) ∧
    (∀ (rt0 : Runtime W) (m0 : gameMonitor W) (w0 : W),
      Event.createGame gameData.Proxy (.error err) ∈ (progressGames rt0 m0 w0).events →
      (progressGames rt0 m0 w0).outcome ≠ .panicked →
      (progressGames rt0 m0 w0).outcome = .returned none) := by
  rw [progressGame_fail rt m gameData w w1 err hn hc]
  refine ⟨⟨_, rfl, rfl, rfl⟩, rfl, hn, by simp, ?_⟩
  intro rt0 m0 w0 hmem hret
  rcases progressGames_cases m0 w0 with ⟨e0, v1, hbn⟩ | ⟨bn, v1, e0, v2, hbn, hsrc⟩ |
    ⟨bn, v1, games, v2, hbn, hsrc⟩
  · rw [progressGames_blockNumber_error _ m0 w0 v1 e0 hbn] at hmem; simp at hmem
  · rw [progressGames_source_error _ m0 w0 v1 v2 bn e0 hbn hsrc] at hmem; simp at hmem
  · rw [progressGames_listed _ m0 w0 v1 v2 bn games hbn hsrc] at hret ⊢
    cases hl : (progressGamesLoop rt0 games m0 v2).outcome with
    | panicked => simp [hl, cycleOutcome] at hret
    | returned u => rfl

/-- C9 at a concrete input, in the runtime where agent 110 panics: `createGame` fails for
address 13, which is not cached, while address 11 is; the cycle that lists 13 and 11 contains
that failed call, is not ended by a panic, and returns `nil`. -/
theorem C9_failed_construction_witness :
    ((progressGame panickingRuntime
        { newGameMonitor fetchBlock100 (sourceOf [[13, 11]]) (createExcept 13) with
          games := [(11, 111)] } ⟨13, 0⟩ 1).events
      = [Event.createGame 13 (.error (.leaf "no such game"))] ∧
      (progressGames panickingRuntime
        { newGameMonitor fetchBlock100 (sourceOf [[13, 11]]) (createExcept 13) with
          games := [(11, 111)] } 0).events =
        [Event.fetchBlockNumber, Event.FetchAllGamesAtBlock 100,
          Event.createGame 13 (.error (.leaf "no such game")),
          Event.logError "Error while progressing game" (some 13)
            (Errorf "failed to progress game 0x: " (.leaf "no such game")),
          Event.ProgressGame 111]) ∧
    ((∃ e, (progressGame panickingRuntime
          { newGameMonitor fetchBlock100 (sourceOf [[13, 11]]) (createExcept 13) with
            games := [(11, 111)] } ⟨13, 0⟩ 1).outcome = .returned (some e) ∧
        e.Unwrap = some (.leaf "no such game") ∧
        e.Error = "failed to progress game " ++ panickingRuntime.addressString 13 ++ ": " ++
          (GoError.leaf "no such game").Error) ∧
      (progressGame panickingRuntime
          { newGameMonitor fetchBlock100 (sourceOf [[13, 11]]) (createExcept 13) with
            games := [(11, 111)] } ⟨13, 0⟩ 1).monitor.games = [(11, 111)] ∧
      (progressGame panickingRuntime
          { newGameMonitor fetchBlock100 (sourceOf [[13, 11]]) (createExcept 13) with
            games := [(11, 111)] } ⟨13, 0⟩ 1).monitor.games.get 13 = none ∧
      (∀ g, Event.ProgressGame g ∉ (progressGame panickingRuntime
          { newGameMonitor fetchBlock100 (sourceOf [[13, 11]]) (createExcept 13) with
            games := [(11, 111)] } ⟨13, 0⟩ 1).events)) ∧
    (progressGames panickingRuntime
        { newGameMonitor fetchBlock100 (sourceOf [[13, 11]]) (createExcept 13) with
          games := [(11, 111)] } 0).outcome = .returned none := by
  have h := C9_failed_construction panickingRuntime
    { newGameMonitor fetchBlock100 (sourceOf [[13, 11]]) (createExcept 13) with
      games := [(11, 111)] } ⟨13, 0⟩ 1 1 (.leaf "no such game") (by decide) (by decide)
  exact ⟨by decide, ⟨h.1, h.2.1, h.2.2.1, h.2.2.2.1⟩,
    h.2.2.2.2 panickingRuntime
      { newGameMonitor fetchBlock100 (sourceOf [[13, 11]]) (createExcept 13) with
        games := [(11, 111)] } 0 (by decide) (by decide)⟩

/-- C15, as stated, fails: addresses 10 and 11 are cached and listed in that order, and
`ProgressGame` panics on the agent of 10; the only agent on which `ProgressGame` is called is
110, while the listing restricted to the records that have an agent is 110, 111. -/
theorem C15_panic_cuts_the_sequence :
    (progressGames panickingRuntime
        { newGameMonitor fetchBlock100 (sourceOf [[10, 11]]) createAlways with
          games := [(10, 110), (11, 111)] } 0).events.filterMap Event.progressed = [110] ∧
    listedAgents panickingRuntime [⟨10, 0⟩, ⟨11, 0⟩]
        { newGameMonitor fetchBlock100 (sourceOf [[10, 11]]) createAlways with
          games := [(10, 110), (11, 111)] } 1 = [110, 111] := by
  decide

/-- C15 (sequential, listing-ordered progression), amended: in a cycle whose discovery succeeds
and that is not ended by a panic in `ProgressGame`, the agents on which `ProgressGame` is
called, in the order of the calls, are the listed records in listing order, restricted to the
records whose address is cached or whose `createGame` succeeds, each replaced by its agent; and
`ProgressGame` is not called on an agent that is not the agent of a listed address. -/
theorem C15_listing_ordered_progression {W : Type} (rt : Runtime W) (m : gameMonitor W)
    (w w1 w2 : W) (blockNum : Uint64) (listing : List FaultDisputeGame)
    (hbn : m.fetchBlockNumber w = (.ok blockNum, w1))
    (hsrc : m.source (SetUint64 blockNum) w1 = (.ok listing, w2))
    (hret : (progressGames rt m w).outcome ≠ .panicked) :
    (progressGames rt m w).events.filterMap Event.progressed = listedAgents rt listing m w2 ∧
    ∀ g, (∀ game ∈ listing, (progressGames rt m w).monitor.games.get game.Proxy ≠ some g) →
      Event.ProgressGame g ∉ (progressGames rt m w).events := by
  have hout := progressGamesLoop_of_cycle rt m w w1 w2 blockNum listing hbn hsrc hret
  have hseq := progressGames_progressed rt m w w1 w2 blockNum listing hbn hsrc hout
  refine ⟨hseq, ?_⟩
  intro g hnot hmem
  have hg : g ∈ (progressGames rt m w).events.filterMap Event.progressed :=
    List.mem_filterMap.mpr ⟨_, hmem, rfl⟩
  rw [hseq] at hg
  obtain ⟨game, hgame, hget⟩ := listedAgents_bound rt listing m w2 hout g hg
  have hmon : (progressGames rt m w).monitor = (progressGamesLoop rt listing m w2).monitor := by
    rw [progressGames_listed rt m w w1 w2 blockNum listing hbn hsrc]
  rw [hmon] at hnot
  exact hnot game hgame hget

/-- C15 amended, at a concrete input, in the runtime where agent 110 panics: addresses 11 and
14 are cached, the listing is 12, 13, 11 and `createGame` fails for 13: `ProgressGame` is
called on the new agent of 12 and then on the agent of 11, and not on the agent of 14, which
is not listed. -/
theorem C15_listing_ordered_progression_witness :
    ((progressGames panickingRuntime
        { newGameMonitor fetchBlock100 (sourceOf [[12, 13, 11]]) (createExcept 13) with
          games := [(14, 114), (11, 111)] } 0).events.filterMap Event.progressed = [112, 111] ∧
      listedAgents panickingRuntime [⟨12, 0⟩, ⟨13, 0⟩, ⟨11, 0⟩]
        { newGameMonitor fetchBlock100 (sourceOf [[12, 13, 11]]) (createExcept 13) with
          games := [(14, 114), (11, 111)] } 1 = [112, 111] ∧
      Event.ProgressGame 114 ∉
        (progressGames panickingRuntime
          { newGameMonitor fetchBlock100 (sourceOf [[12, 13, 11]]) (createExcept 13) with
            games := [(14, 114), (11, 111)] } 0).events) ∧
    ((progressGames panickingRuntime
        { newGameMonitor fetchBlock100 (sourceOf [[12, 13, 11]]) (createExcept 13) with
          games := [(14, 114), (11, 111)] } 0).events.filterMap Event.progressed =
      listedAgents panickingRuntime [⟨12, 0⟩, ⟨13, 0⟩, ⟨11, 0⟩]
        { newGameMonitor fetchBlock100 (sourceOf [[12, 13, 11]]) (createExcept 13) with
          games := [(14, 114), (11, 111)] } 1 ∧
    ∀ g, (∀ game ∈ [(⟨12, 0⟩ : FaultDisputeGame), ⟨13, 0⟩, ⟨11, 0⟩],
        (progressGames panickingRuntime
          { newGameMonitor fetchBlock100 (sourceOf [[12, 13, 11]]) (createExcept 13) with
            games := [(14, 114), (11, 111)] } 0).monitor.games.get game.Proxy ≠ some g) →
      Event.ProgressGame g ∉
        (progressGames panickingRuntime
          { newGameMonitor fetchBlock100 (sourceOf [[12, 13, 11]]) (createExcept 13) with
            games := [(14, 114), (11, 111)] } 0).events) :=
  ⟨by decide,
    C15_listing_ordered_progression panickingRuntime
      { newGameMonitor fetchBlock100 (sourceOf [[12, 13, 11]]) (createExcept 13) with
        games := [(14, 114), (11, 111)] } 0 0 1 100 [⟨12, 0⟩, ⟨13, 0⟩, ⟨11, 0⟩]
      (by decide) (by decide) (by decide)⟩

/-- C19, as stated, fails: address 10 is cached, address 13 is not, the listing is 10, 13 and
`ProgressGame` panics on the agent of 10; the cycle makes no `createGame` call for 13,
although 13 is not cached, occurs once in the listing and no `createGame` call for it
succeeds. -/
theorem C19_no_call_after_panic :
    (progressGames panickingRuntime
        { newGameMonitor fetchBlock100 (sourceOf [[10, 13]]) createAlways with
          games := [(10, 110)] } 0).events =
      [Event.fetchBlockNumber, Event.FetchAllGamesAtBlock 100, Event.ProgressGame 110] ∧
    GameMap.get [(10, 110)] 13 = none ∧
    (progressGames panickingRuntime
        { newGameMonitor fetchBlock100 (sourceOf [[10, 13]]) createAlways with
          games := [(10, 110)] } 0).events.countP (Event.isCreateCall 13) = 0 ∧
    [(⟨10, 0⟩ : FaultDisputeGame), ⟨13, 0⟩].countP (fun game => game.Proxy == 13) = 1 := by
  decide

/-- C19 (`createGame` calls within one cycle), amended: in a cycle whose discovery succeeds
and that is not ended by a panic in `ProgressGame`, for every address `A`:
one call of `progressGame` calls `createGame` for `A` once if its record has the address `A`
and `A` is not cached, and not at all otherwise; at most one `createGame` call for `A`
succeeds in the cycle; no `createGame` call for `A` is made if `A` is cached when the cycle
begins; if `A` is not cached then and no `createGame` call for `A` succeeds, there are as
many calls as occurrences of `A` in the listing; and if the `createGame` call of an occurrence
of `A` succeeds with the agent `g`, there are as many calls as occurrences of `A` up to and
including that one, that record makes the `createGame` call and then progresses `g`, and every
later occurrence of `A` makes exactly one call, `ProgressGame` on `g`. -/
theorem C19_create_calls_per_cycle {W : Type} (rt : Runtime W) (m : gameMonitor W)
    (w w1 w2 : W) (blockNum : Uint64) (listing : List FaultDisputeGame)
    (hbn : m.fetchBlockNumber w = (.ok blockNum, w1))
    (hsrc : m.source (SetUint64 blockNum) w1 = (.ok listing, w2))
    (hret : (progressGames rt m w).outcome ≠ .panicked) (A : Address) :
    (∀ (m0 : gameMonitor W) (game : FaultDisputeGame) (w0 : W),
      (progressGame rt m0 game w0).events.countP
          (Event.isCreateCall A) =
        if game.Proxy = A ∧ m0.games.get A = none then 1 else 0) ∧
    (progressGames rt m w).events.countP
      (Event.isCreated A) ≤ 1 ∧
    (m.games.get A ≠ none →
      (progressGames rt m w).events.countP
        (Event.isCreateCall A) = 0) ∧
    (m.games.get A = none →
      (∀ g, Event.createGame A (.ok g) ∉
        (progressGames rt m w).events) →
      (progressGames rt m w).events.countP
          (Event.isCreateCall A) =
        listing.countP (fun game => game.Proxy == A)) ∧
    (∀ (pre : List FaultDisputeGame) (game : FaultDisputeGame) (post : List FaultDisputeGame)
        (g : Agent),
      listing = pre ++ game :: post → game.Proxy = A →
      Event.createGame A (.ok g) ∈
        (progressGame rt
          (progressGamesLoop rt pre m w2).monitor game
          (progressGamesLoop rt pre m w2).world
          ).events →
      (progressGames rt m w).events.countP
          (Event.isCreateCall A) =
        pre.countP (fun game => game.Proxy == A) + 1 ∧
      (progressGame rt
          (progressGamesLoop rt pre m w2).monitor game
          (progressGamesLoop rt pre m w2).world
          ).events = [Event.createGame A (.ok g), Event.ProgressGame g] ∧
      ∀ (post1 : List FaultDisputeGame) (later : FaultDisputeGame)
          (post2 : List FaultDisputeGame),
        post = post1 ++ later :: post2 → later.Proxy = A →
        (progressGame rt
          (progressGamesLoop rt
            (pre ++ game :: post1) m w2).monitor later
          (progressGamesLoop rt
            (pre ++ game :: post1) m w2).world).events = [Event.ProgressGame g]) := by
  have hcalls := progressGames_createCalls rt m w w1 w2
    blockNum listing hbn hsrc A
  have hlist := progressGamesLoop_of_cycle rt m w w1 w2 blockNum listing hbn hsrc hret
  refine ⟨fun m0 game w0 => progressGame_createCalls _ m0 game w0 A,
    (progressGames_sound _ m w).once.countP_le_one A, ?_, ?_, ?_⟩
  · intro hcached
    rw [hcalls]
    exact progressGamesLoop_createCalls_cached _ listing m w2 A hcached
  · intro hstart hnone
    rw [hcalls]
    apply progressGamesLoop_createCalls_uncached _ listing A m w2 hlist
    cases hfin : (progressGamesLoop rt listing m
        w2).monitor.games.get A with
    | none => rfl
    | some g =>
      rcases (progressGamesLoop_sound _ listing m w2).origin A g hfin with h | h
      · rw [hstart] at h; cases h
      · exfalso
        apply hnone g
        rw [progressGames_listed _ m w w1 w2 blockNum listing hbn hsrc]
        exact List.mem_cons_of_mem _ (List.mem_cons_of_mem _ h)
  · intro pre game post g hsplit hA hmem
    have hpre : (progressGamesLoop rt pre m w2).outcome ≠ .panicked :=
      progressGamesLoop_prefix rt pre (game :: post) m w2 (hsplit ▸ hlist)
    have hfresh := (progressGame_sound _ _ game _).fresh A _ hmem
    refine ⟨?_, progressGame_events_of_created _ _ game _ A g hmem, ?_⟩
    · rw [hcalls, hsplit, progressGamesLoop_append _ pre (game :: post) m w2 hpre]
      simp only [List.countP_append]
      rw [progressGamesLoop_createCalls_uncached _ pre A m w2 hpre hfresh,
        progressGamesLoop_createCalls_from_created _ game post _ _ A g hA hmem]
    · intro post1 later post2 _ hlater
      have hin : Event.createGame A (.ok g) ∈
          (progressGamesLoop rt
            (pre ++ game :: post1) m w2).events := by
        rw [progressGamesLoop_append _ pre (game :: post1) m w2 hpre]
        apply List.mem_append.mpr
        right
        cases ho : (progressGame rt
            (progressGamesLoop rt pre m w2).monitor
            game (progressGamesLoop rt pre m
              w2).world).outcome with
        | panicked =>
          rw [progressGamesLoop_panicked _ game post1 _ _ ho]; exact hmem
        | returned e =>
          rw [progressGamesLoop_returned _ game post1 _ _ e ho]
          exact List.mem_append.mpr (Or.inl hmem)
      have hbound := (progressGamesLoop_sound _ (pre ++ game :: post1) m w2).stored A g hin
      rw [← hlater] at hbound
      rw [progressGame_hit _ _ later _ g hbound, callProgressGame_events]
      rfl

/-- C19 amended, at a concrete input, in the runtime where agent 110 panics: address 13 is
listed three times and is not cached; its first `createGame` call fails, the second succeeds
with agent 113, the third occurrence progresses agent 113 without a `createGame` call: two
`createGame` calls, one occurrence before the one that succeeds. -/
theorem C19_create_calls_per_cycle_witness :
    (progressGames panickingRuntime
        (newGameMonitor fetchBlock100 (sourceOf [[13, 13, 13]]) createFlaky) 0).events =
      [Event.fetchBlockNumber, Event.FetchAllGamesAtBlock 100,
        Event.createGame 13 (.error (.leaf "try again")),
        Event.logError "Error while progressing game" (some 13)
          (Errorf "failed to progress game 0x: " (.leaf "try again")),
        Event.createGame 13 (.ok 113), Event.ProgressGame 113, Event.ProgressGame 113] ∧
    (progressGames panickingRuntime
        (newGameMonitor fetchBlock100 (sourceOf [[13, 13, 13]]) createFlaky) 0).events.countP
      (Event.isCreated 13) ≤ 1 ∧
    ((progressGames panickingRuntime
        (newGameMonitor fetchBlock100 (sourceOf [[13, 13, 13]]) createFlaky) 0).events.countP
      (Event.isCreateCall 13) =
        [(⟨13, 0⟩ : FaultDisputeGame)].countP (fun game => game.Proxy == 13) + 1 ∧
      (progressGame panickingRuntime
        (progressGamesLoop panickingRuntime [⟨13, 0⟩]
          (newGameMonitor fetchBlock100 (sourceOf [[13, 13, 13]]) createFlaky) 1).monitor ⟨13, 0⟩
        (progressGamesLoop panickingRuntime [⟨13, 0⟩]
          (newGameMonitor fetchBlock100 (sourceOf [[13, 13, 13]]) createFlaky) 1).world).events =
        [Event.createGame 13 (.ok 113), Event.ProgressGame 113] ∧
      ∀ (post1 : List FaultDisputeGame) (later : FaultDisputeGame)
          (post2 : List FaultDisputeGame),
        [(⟨13, 0⟩ : FaultDisputeGame)] = post1 ++ later :: post2 → later.Proxy = 13 →
        (progressGame panickingRuntime
          (progressGamesLoop panickingRuntime ([⟨13, 0⟩] ++ ⟨13, 0⟩ :: post1)
            (newGameMonitor fetchBlock100 (sourceOf [[13, 13, 13]]) createFlaky) 1).monitor later
          (progressGamesLoop panickingRuntime ([⟨13, 0⟩] ++ ⟨13, 0⟩ :: post1)
            (newGameMonitor fetchBlock100 (sourceOf [[13, 13, 13]]) createFlaky) 1).world).events
          = [Event.ProgressGame 113]) := by
  have h := C19_create_calls_per_cycle panickingRuntime
    (newGameMonitor fetchBlock100 (sourceOf [[13, 13, 13]]) createFlaky) 0 0 1 100
    [⟨13, 0⟩, ⟨13, 0⟩, ⟨13, 0⟩] (by decide) (by decide) (by decide) 13
  exact ⟨by decide, h.2.1, h.2.2.2.2 [⟨13, 0⟩] ⟨13, 0⟩ [⟨13, 0⟩] 113 rfl rfl (by decide)⟩

/-- C18, as stated, fails: `MonitorGames` is entered with a cancelled context, addresses 10
and 11 are cached and listed, and `ProgressGame` panics on the agent of 10; the panic unwinds
through `MonitorGames` in the first cycle: the record of 11 is not attempted, no wait is
reached and `ctx.Err()` is not returned. -/
theorem C18_panic_in_first_cycle :
    (MonitorGames panickingRuntime cancelledContext 3
        { newGameMonitor fetchBlock100 (sourceOf [[10, 11]]) createAlways with
          games := [(10, 110), (11, 111)] } 0).events =
      [Event.logInfo "Monitoring fault dispute games",
        Event.fetchBlockNumber, Event.FetchAllGamesAtBlock 100, Event.ProgressGame 110] ∧
    (MonitorGames panickingRuntime cancelledContext 3
        { newGameMonitor fetchBlock100 (sourceOf [[10, 11]]) createAlways with
          games := [(10, 110), (11, 111)] } 0).outcome = .panicked ∧
    Event.ProgressGame 111 ∉
      (MonitorGames panickingRuntime cancelledContext 3
        { newGameMonitor fetchBlock100 (sourceOf [[10, 11]]) createAlways with
          games := [(10, 110), (11, 111)] } 0).events := by
  decide

/-- C18 (cancellation is observed only between cycles), amended: whatever the context, the
first iteration of `MonitorGames` begins with a whole call of `progressGames`, which does not
read the context; if that cycle is not ended by a panic in `ProgressGame`, every record of its
listing is attempted; as long as no panic has unwound through it, `MonitorGames` has made
exactly one wait for each cycle it has run, the context being examined in those waits only;
and when the first cycle returns and the context is already cancelled as the first wait
begins, as it is when `MonitorGames` is entered with a cancelled context, `MonitorGames` runs
that one cycle in full and then returns `ctx.Err()`, however long it is observed. -/
theorem C18_cancellation_between_cycles {W : Type} (rt : Runtime W) (ctx : Context W)
    (fuel : Nat) (m : gameMonitor W) (w : W) :
    (∃ rest, (MonitorGames rt ctx (fuel + 1) m w).events =
      Event.logInfo "Monitoring fault dispute games" ::
        ((progressGames rt m w).events ++ rest)) ∧
    (∀ (blockNum : Uint64) (w1 w2 : W) (listing : List FaultDisputeGame),
      m.fetchBlockNumber w = (.ok blockNum, w1) →
      m.source (SetUint64 blockNum) w1 = (.ok listing, w2) →
      (progressGames rt m w).outcome ≠ .panicked →
      ∀ game ∈ listing,
        Attempted (progressGames rt m w).monitor.games
          (MonitorGames rt ctx (fuel + 1) m w).events game) ∧
    ((MonitorGames rt ctx fuel m w).outcome ≠ .panicked →
      (MonitorGames rt ctx fuel m w).events.countP Event.isWait =
        (MonitorGames rt ctx fuel m w).events.countP Event.isFetchBlockNumber) ∧
    (∀ err, (progressGames rt m w).outcome = .returned err →
      ctx.doneAfter (progressGames rt m w).world = some 0 →
      MonitorGames rt ctx (fuel + 1) m w =
        ⟨.returned (ctx.Err (ctx.elapse 0 (progressGames rt m w).world)),
          (progressGames rt m w).monitor, ctx.elapse 0 (progressGames rt m w).world,
          Event.logInfo "Monitoring fault dispute games" ::
            ((progressGames rt m w).events ++
              (loggedForCycle err ++ [Event.selectWait 0 .done]))⟩) := by
  have hfirst := MonitorGames_first_cycle rt ctx fuel m w
  refine ⟨hfirst, ?_, ?_, ?_⟩
  · intro blockNum w1 w2 listing hbn hsrc hret game hmem
    obtain ⟨rest, hrest⟩ := hfirst
    have hatt := progressGames_attempted rt m w w1 w2 blockNum listing hbn hsrc hret game hmem
    apply hatt.mono
    intro e he
    rw [hrest]
    exact List.mem_cons_of_mem _ (List.mem_append.mpr (Or.inl he))
  · intro hout
    have h := MonitorGamesLoop_waits rt ctx fuel m w hout
    unfold MonitorGames
    simp [List.countP_cons, Event.isWait, Event.isFetchBlockNumber, h]
  · intro err ho hdone
    have hsel := selectWait_of_doneAfter ctx _ 0 hdone (by decide)
    unfold MonitorGames
    rw [MonitorGamesLoop_done _ ctx fuel m w err 0 ho hsel]

/-- C18 amended, at a concrete input: `MonitorGames` is entered with a cancelled context on the
monitor of the two-cycle scenario; it runs the first cycle in full, creating and progressing
both listed games, makes one wait and returns the error of the context there. -/
theorem C18_cancellation_between_cycles_witness :
    ((MonitorGames steadyRuntime cancelledContext (7 + 1) scenarioMonitor 0).events =
        [Event.logInfo "Monitoring fault dispute games",
          Event.fetchBlockNumber, Event.FetchAllGamesAtBlock 100,
          Event.createGame 10 (.ok 110), Event.ProgressGame 110,
          Event.createGame 11 (.ok 111), Event.ProgressGame 111,
          Event.selectWait 0 .done] ∧
      (MonitorGames steadyRuntime cancelledContext (7 + 1) scenarioMonitor 0).outcome =
        .returned (some (.leaf "context canceled"))) ∧
    (∀ game ∈ [(⟨10, 0⟩ : FaultDisputeGame), ⟨11, 0⟩],
      Attempted (progressGames steadyRuntime scenarioMonitor 0).monitor.games
        (MonitorGames steadyRuntime cancelledContext (7 + 1) scenarioMonitor 0).events game) ∧
    (MonitorGames steadyRuntime cancelledContext 7 scenarioMonitor 0).events.countP
        Event.isWait =
      (MonitorGames steadyRuntime cancelledContext 7 scenarioMonitor 0).events.countP
        Event.isFetchBlockNumber ∧
    MonitorGames steadyRuntime cancelledContext (7 + 1) scenarioMonitor 0 =
      ⟨.returned (cancelledContext.Err (cancelledContext.elapse 0
          (progressGames steadyRuntime scenarioMonitor 0).world)),
        (progressGames steadyRuntime scenarioMonitor 0).monitor,
        cancelledContext.elapse 0 (progressGames steadyRuntime scenarioMonitor 0).world,
        Event.logInfo "Monitoring fault dispute games" ::
          ((progressGames steadyRuntime scenarioMonitor 0).events ++
            (loggedForCycle none ++ [Event.selectWait 0 .done]))⟩ := by
  have h := C18_cancellation_between_cycles steadyRuntime cancelledContext 7 scenarioMonitor 0
  exact ⟨by decide,
    h.2.1 100 0 1 [⟨10, 0⟩, ⟨11, 0⟩] (by decide) (by decide) (by decide),
    h.2.2.1 (by decide), h.2.2.2 none (by decide) (by decide)⟩

end Fault
